import Mathlib

/-!
Verification of the breakpad stack-walker core against its specification.

The ARM64 and PPC64 stack walkers (src/processor/stackwalker_arm64.cc,
src/processor/stackwalker_ppc64.cc) are shallowly embedded below: machine
integers are natural numbers reduced modulo 2^64 exactly where the C code
relies on `uint64_t` wrap-around, memory is a partial map from addresses to
64-bit words, and the collaborators that are not part of the sources
(the CFI rule evaluator `CFIFrameInfo::FindCallerRegs`, the shared
`Stackwalker::ScanForReturnAddress` heuristic and the symbolizer's
`FindCFIFrameInfo` lookup) are abstracted as function parameters of the
walker state.  The shared `Stackwalker::TerminateWalk` helper and the
resolver and DWARF line-pairing components are modelled from the
specification, as indicated on their doc comments.
-/

namespace Breakpad

/-- Size of the 64-bit machine word domain. -/
def WORD : Nat := 2 ^ 64

/-- Reduction of a natural number into the `uint64_t` range. -/
def w64 (x : Nat) : Nat := x % WORD

/-- 64-bit wrap-around subtraction `a - b` as computed on `uint64_t`. -/
def sub64 (a b : Nat) : Nat := w64 (a + (WORD - w64 b))

/-- A loaded code module: `{base_address, size}` as seen through the
`CodeModule` interface used by the walkers. -/
structure CodeModule where
  base_address : Nat
  size : Nat
deriving DecidableEq

/-- Containment of an address in a module's `[base, base+size)` range. -/
def moduleContains (m : CodeModule) (a : Nat) : Bool :=
  decide (m.base_address ≤ a) && decide (a < m.base_address + m.size)

/-- `CodeModules::GetModuleForAddress`: the loaded module covering the
address, if any.  The list holds the modules in sequence order. -/
def GetModuleForAddress (modules : List CodeModule) (a : Nat) : Option CodeModule :=
  modules.find? (fun m => moduleContains m a)

/-- One `mask |= mask >> s` step of the ARM64 walker constructor. -/
def smearStep (a s : Nat) : Nat := a ||| (a >>> s)

/-- The bit-smearing computation of the ARM64 walker constructor
(stackwalker_arm64.cc lines 71-78): `mask |= mask >> 1; ... mask |= mask >> 32`. -/
def smearMask (m0 : Nat) : Nat :=
  smearStep (smearStep (smearStep (smearStep (smearStep (smearStep m0 1) 2) 4)
    8) 16) 32

/-- The `address_range_mask_` computed by `StackwalkerARM64::StackwalkerARM64`:
smear the top address of the highest-loaded module (the module at sequence
position `module_count() - 1`), or all-ones when no modules are loaded. -/
def mkAddressRangeMask (modules : List CodeModule) : Nat :=
  match modules.getLast? with
  | some high_module => smearMask (w64 (high_module.base_address + high_module.size))
  | none => 0xffffffffffffffff

/-- `StackFrame::FrameTrust` (trust levels of google_breakpad::StackFrame). -/
inductive FrameTrust where
  | trust_none
  | scan
  | cfi_scan
  | fp
  | cfi
  | prewalked
  | context
  | inline
deriving DecidableEq

/-- Register index of the ARM64 frame pointer x29 (`MD_CONTEXT_ARM64_REG_FP`). -/
def rFP : Fin 33 := ⟨29, by decide⟩

/-- Register index of the ARM64 link register x30 (`MD_CONTEXT_ARM64_REG_LR`). -/
def rLR : Fin 33 := ⟨30, by decide⟩

/-- Register index of the ARM64 stack pointer (`MD_CONTEXT_ARM64_REG_SP`). -/
def rSP : Fin 33 := ⟨31, by decide⟩

/-- Register index of the ARM64 program counter (`MD_CONTEXT_ARM64_REG_PC`). -/
def rPC : Fin 33 := ⟨32, by decide⟩

/-- The ARM64 CPU context: the 33 `iregs` (x0..x30, sp, pc). -/
structure MDRawContextARM64 where
  iregs : Fin 33 → Nat

/-- Update one register of an ARM64 context. -/
def setReg (c : MDRawContextARM64) (i : Fin 33) (v : Nat) : MDRawContextARM64 :=
  ⟨Function.update c.iregs i v⟩

/-- `StackFrameARM64`.  A freshly constructed frame has a zeroed context,
no valid registers and no trust, matching `new StackFrameARM64()`. -/
structure StackFrameARM64 where
  instruction : Nat := 0
  trust : FrameTrust := .trust_none
  context : MDRawContextARM64 := ⟨fun _ => 0⟩
  context_validity : Nat := 0

/-- `StackFrameARM64::RegisterValidFlag(n)`: the validity bit of register n. -/
def RegisterValidFlag (n : Nat) : Nat := 2 ^ n

/-- The register-name table of `StackwalkerARM64::GetCallerByCFIFrameInfo`. -/
def registerNames : List String :=
  ["x0", "x1", "x2", "x3", "x4", "x5", "x6", "x7",
   "x8", "x9", "x10", "x11", "x12", "x13", "x14", "x15",
   "x16", "x17", "x18", "x19", "x20", "x21", "x22", "x23",
   "x24", "x25", "x26", "x27", "x28", "x29", "x30", "sp",
   "pc"]

/-- Name of ARM64 register number `i` in the CFI rule dictionary. -/
def regName (i : Nat) : String := registerNames.getD i ""

/-- `CFIFrameInfo::RegisterValueMap<uint64_t>` as a partial map from
register names to values. -/
def RegisterValueMap : Type := String → Option Nat

/-- A CFI frame-info record, abstracted to its observable behaviour: its
`FindCallerRegs` evaluation (cfi_frame_info.cc is not among the source
files), taking the callee register snapshot to the recovered caller
registers, with the memory region baked in.  `none` is a failed evaluation. -/
def CFIFrameInfo : Type := RegisterValueMap → Option RegisterValueMap

/-- The dictionary of valid callee registers built at the top of
`GetCallerByCFIFrameInfo` (lines 120-125): `name -> iregs[i]` for every
register whose validity bit is set in the callee frame. -/
def calleeRegMap (last_frame : StackFrameARM64) : RegisterValueMap := fun name =>
  match registerNames.findIdx? (fun s => s == name) with
  | some i =>
    if h : i < 33 then
      if last_frame.context_validity.testBit i then
        some (last_frame.context.iregs ⟨i, h⟩)
      else none
    else none
  | none => none

/-- One iteration of the register-recovery loop of `GetCallerByCFIFrameInfo`
(lines 135-153): take the caller value if the CFI recovered it, else copy a
valid callee-saves register x19..x29 from the callee. -/
def applyCFIRegister (caller : RegisterValueMap) (last_frame : StackFrameARM64)
    (f : StackFrameARM64) (i : Fin 33) : StackFrameARM64 :=
  match caller (regName i.val) with
  | some v =>
    { f with context_validity := f.context_validity ||| RegisterValidFlag i.val,
             context := setReg f.context i v }
  | none =>
    if 19 ≤ i.val ∧ i.val ≤ 29 ∧ last_frame.context_validity.testBit i.val then
      { f with context_validity := f.context_validity ||| RegisterValidFlag i.val,
               context := setReg f.context i (last_frame.context.iregs i) }
    else f

/-- The full register-recovery loop over registers 0..32, starting from a
freshly constructed frame. -/
def cfiFillFrame (caller : RegisterValueMap) (last_frame : StackFrameARM64) :
    StackFrameARM64 :=
  (List.finRange 33).foldl (applyCFIRegister caller last_frame) {}

/-- Lines 154-162: if the CFI did not recover the PC explicitly, use `.ra`. -/
def applyRAFallback (caller : RegisterValueMap) (f : StackFrameARM64) :
    StackFrameARM64 :=
  if f.context_validity.testBit rPC.val then f
  else
    match caller ".ra" with
    | some v =>
      { f with context_validity := f.context_validity ||| RegisterValidFlag rPC.val,
               context := setReg f.context rPC v }
    | none => f

/-- Lines 163-171: if the CFI did not recover the SP explicitly, use `.cfa`. -/
def applyCFAFallback (caller : RegisterValueMap) (f : StackFrameARM64) :
    StackFrameARM64 :=
  if f.context_validity.testBit rSP.val then f
  else
    match caller ".cfa" with
    | some v =>
      { f with context_validity := f.context_validity ||| RegisterValidFlag rSP.val,
               context := setReg f.context rSP v }
    | none => f

/-- The ARM64 stack walker state: context-free collaborators of
`StackwalkerARM64`.  `memory` is `MemoryRegion::GetMemoryAtAddress` for
64-bit reads, `findCFIFrameInfo` is the symbolizer's CFI lookup, and
`scanForReturnAddress` is the shared scanning heuristic
(`Stackwalker::ScanForReturnAddress`, not among the source files), taking
the callee SP and whether the callee is a context frame to a found
`(caller_sp, caller_pc)` pair. -/
structure StackwalkerARM64 where
  memory : Nat → Option Nat
  modules : List CodeModule
  findCFIFrameInfo : StackFrameARM64 → Option CFIFrameInfo
  scanForReturnAddress : Nat → Bool → Option (Nat × Nat)
  address_range_mask : Nat

/-- The constructor `StackwalkerARM64::StackwalkerARM64`: stores the
collaborators and derives `address_range_mask_` from the loaded modules. -/
def mkStackwalkerARM64 (memory : Nat → Option Nat) (modules : List CodeModule)
    (findCFI : StackFrameARM64 → Option CFIFrameInfo)
    (scan : Nat → Bool → Option (Nat × Nat)) : StackwalkerARM64 :=
  { memory := memory, modules := modules, findCFIFrameInfo := findCFI,
    scanForReturnAddress := scan, address_range_mask := mkAddressRangeMask modules }

/-- `StackwalkerARM64::PtrauthStrip` (lines 82-85). -/
def StackwalkerARM64.PtrauthStrip (w : StackwalkerARM64) (ptr : Nat) : Nat :=
  let stripped := ptr &&& w.address_range_mask
  if (GetModuleForAddress w.modules stripped).isSome then stripped else ptr

/-- The frame built by `GetCallerByCFIFrameInfo` before the essentials
check: the register-recovery loop followed by the `.ra` and `.cfa`
fallbacks. -/
def cfiPipeline (caller : RegisterValueMap) (last_frame : StackFrameARM64) :
    StackFrameARM64 :=
  applyCFAFallback caller (applyRAFallback caller (cfiFillFrame caller last_frame))

/-- `StackwalkerARM64::GetCallerByCFIFrameInfo` (lines 107-183). -/
def StackwalkerARM64.GetCallerByCFIFrameInfo (w : StackwalkerARM64)
    (frames : List StackFrameARM64) (cfi : CFIFrameInfo) :
    Option StackFrameARM64 :=
  match frames.getLast? with
  | none => none
  | some last_frame =>
    match cfi (calleeRegMap last_frame) with
    | none => none
    | some caller =>
      if (cfiPipeline caller last_frame).context_validity.testBit rSP.val ∧
          (cfiPipeline caller last_frame).context_validity.testBit rPC.val then
        some { cfiPipeline caller last_frame with
                 context := setReg (cfiPipeline caller last_frame).context rPC
                   (w.PtrauthStrip
                     ((cfiPipeline caller last_frame).context.iregs rPC)),
                 trust := .cfi }
      else none

/-- `StackwalkerARM64::CorrectRegLRByFramePointer` (lines 263-310), returning
the possibly LR-corrected last frame. -/
def StackwalkerARM64.CorrectRegLRByFramePointer (w : StackwalkerARM64)
    (frames : List StackFrameARM64) (last_frame : StackFrameARM64) :
    StackFrameARM64 :=
  if frames.length < 2 ∨
      last_frame.context.iregs rFP ≤ last_frame.context.iregs rSP then
    last_frame
  else
    match frames.dropLast.reverse.find? (fun fr => !(fr.trust == FrameTrust.inline)) with
    | none => last_frame
    | some last_frame_callee =>
      let last_frame_callee_fp := last_frame_callee.context.iregs rFP
      match (if last_frame_callee_fp ≠ 0 then w.memory last_frame_callee_fp
             else some 0) with
      | none => last_frame
      | some last_fp =>
        if last_frame.context.iregs rFP ≠ last_fp then last_frame
        else
          match (if last_frame_callee_fp ≠ 0 then
                   w.memory (w64 (last_frame_callee_fp + 8))
                 else some 0) with
          | none => last_frame
          | some last_lr =>
            { last_frame with
                context := setReg last_frame.context rLR (w.PtrauthStrip last_lr) }

/-- `StackwalkerARM64::GetCallerByFramePointer` (lines 217-261). -/
def StackwalkerARM64.GetCallerByFramePointer (w : StackwalkerARM64)
    (frames : List StackFrameARM64) : Option StackFrameARM64 :=
  match frames.getLast? with
  | none => none
  | some last0 =>
    let last_frame :=
      if last0.context_validity.testBit rLR.val then last0
      else w.CorrectRegLRByFramePointer frames last0
    let last_fp := last_frame.context.iregs rFP
    match (if last_fp ≠ 0 then w.memory last_fp else some 0) with
    | none => none
    | some caller_fp =>
      match (if last_fp ≠ 0 then w.memory (w64 (last_fp + 8)) else some 0) with
      | none => none
      | some caller_lr0 =>
        let caller_lr := w.PtrauthStrip caller_lr0
        let caller_sp := if last_fp ≠ 0 then w64 (last_fp + 16)
                         else last_frame.context.iregs rSP
        some { trust := .fp,
               context := setReg (setReg (setReg (setReg last_frame.context
                            rFP caller_fp) rSP caller_sp) rPC
                            (last_frame.context.iregs rLR)) rLR caller_lr,
               context_validity := RegisterValidFlag rPC.val |||
                   RegisterValidFlag rLR.val ||| RegisterValidFlag rFP.val |||
                   RegisterValidFlag rSP.val,
               instruction := 0 }

/-- `StackwalkerARM64::GetCallerByStackScan` (lines 185-215). -/
def StackwalkerARM64.GetCallerByStackScan (w : StackwalkerARM64)
    (frames : List StackFrameARM64) : Option StackFrameARM64 :=
  match frames.getLast? with
  | none => none
  | some last_frame =>
    match w.scanForReturnAddress (last_frame.context.iregs rSP)
            (last_frame.trust == FrameTrust.context) with
    | none => none
    | some (caller_sp0, caller_pc) =>
      some { trust := .scan,
             context := setReg (setReg last_frame.context rPC caller_pc) rSP
                          (w64 (caller_sp0 + 8)),
             context_validity := RegisterValidFlag rPC.val |||
                 RegisterValidFlag rSP.val,
             instruction := 0 }

/-- Modelled from the spec: the shared `Stackwalker::TerminateWalk` helper
(processor/stackwalker.cc is not among the source files; both walkers call
it with the candidate caller PC, the caller SP, the callee SP and whether
the callee is the CONTEXT frame).  Per the spec's termination invariants the
walk stops when the candidate PC is 0 and when the new SP fails to strictly
increase relative to the callee SP; the first unwind from a CONTEXT frame
relaxes the strict increase to allow equality. -/
def TerminateWalk (caller_pc caller_sp callee_sp : Nat) (first_unwind : Bool) :
    Bool :=
  caller_pc == 0 ||
    (if first_unwind then decide (caller_sp < callee_sp)
     else decide (caller_sp ≤ callee_sp))

/-- The tail of `StackwalkerARM64::GetCallerFrame` (lines 341-357): drop the
frame if the walk must terminate, otherwise set `instruction` to the caller
PC minus 4. -/
def arm64Finalize (last_frame f : StackFrameARM64) : Option StackFrameARM64 :=
  if TerminateWalk (f.context.iregs rPC) (f.context.iregs rSP)
       (last_frame.context.iregs rSP)
       (last_frame.trust == FrameTrust.context) then none
  else some { f with instruction := sub64 (f.context.iregs rPC) 4 }

/-- The CFI attempt of `GetCallerFrame` (lines 323-327): see if there is
CFI covering the callee's address, and evaluate it if so. -/
def StackwalkerARM64.cfiAttempt (w : StackwalkerARM64)
    (frames : List StackFrameARM64) (last_frame : StackFrameARM64) :
    Option StackFrameARM64 :=
  match w.findCFIFrameInfo last_frame with
  | some cfi => w.GetCallerByCFIFrameInfo frames cfi
  | none => none

/-- The strategy chain of `GetCallerFrame` (lines 323-339): CFI when
available, else frame pointer, else stack scanning when allowed. -/
def StackwalkerARM64.chooseStrategy (w : StackwalkerARM64)
    (frames : List StackFrameARM64) (stack_scan_allowed : Bool) :
    Option StackFrameARM64 :=
  match frames.getLast? with
  | none => none
  | some last_frame =>
    match w.cfiAttempt frames last_frame with
    | some f => some f
    | none =>
      match w.GetCallerByFramePointer frames with
      | some f => some f
      | none =>
        if stack_scan_allowed then w.GetCallerByStackScan frames else none

/-- `StackwalkerARM64::GetCallerFrame` (lines 312-359). -/
def StackwalkerARM64.GetCallerFrame (w : StackwalkerARM64)
    (frames : List StackFrameARM64) (stack_scan_allowed : Bool) :
    Option StackFrameARM64 :=
  match frames.getLast? with
  | none => none
  | some last_frame =>
    match w.chooseStrategy frames stack_scan_allowed with
    | none => none
    | some f => arm64Finalize last_frame f

/-- The PPC64 CPU context: `srr0` and the 32 general-purpose registers. -/
structure MDRawContextPPC64 where
  srr0 : Nat
  gpr : Fin 32 → Nat

/-- `StackFramePPC64`, freshly constructed as zeroed. -/
structure StackFramePPC64 where
  instruction : Nat := 0
  trust : FrameTrust := .trust_none
  context : MDRawContextPPC64 := ⟨0, fun _ => 0⟩
  context_validity : Nat := 0

/-- `StackFramePPC64::CONTEXT_VALID_SRR0`. -/
def PPC64_VALID_SRR0 : Nat := 1

/-- `StackFramePPC64::CONTEXT_VALID_GPR1`. -/
def PPC64_VALID_GPR1 : Nat := 2

/-- Index of `%r1`, the PPC64 stack pointer. -/
def g1 : Fin 32 := ⟨1, by decide⟩

/-- The PPC64 stack walker state. -/
structure StackwalkerPPC64 where
  memory : Nat → Option Nat

/-- `StackwalkerPPC64::GetCallerFrame` (stackwalker_ppc64.cc lines 80-146). -/
def StackwalkerPPC64.GetCallerFrame (w : StackwalkerPPC64)
    (frames : List StackFramePPC64) (stack_scan_allowed : Bool) :
    Option StackFramePPC64 :=
  match frames.getLast? with
  | none => none
  | some last_frame =>
    match w.memory (last_frame.context.gpr g1) with
    | none => none
    | some stack_pointer =>
      if stack_pointer ≤ last_frame.context.gpr g1 then none
      else
        match w.memory (w64 (stack_pointer + 16)) with
        | none => none
        | some instruction =>
          if instruction ≤ 1 then none
          else if TerminateWalk instruction stack_pointer
                 (last_frame.context.gpr g1)
                 (last_frame.trust == FrameTrust.context) then none
          else
            some { context := { last_frame.context with
                                  srr0 := instruction,
                                  gpr := Function.update last_frame.context.gpr
                                           g1 stack_pointer },
                   context_validity := PPC64_VALID_SRR0 ||| PPC64_VALID_GPR1,
                   trust := .fp,
                   instruction := sub64 instruction 8 }

/-- SP of an optional ARM64 frame (0 when absent). -/
def frameSp (o : Option StackFrameARM64) : Nat :=
  match o with
  | some f => f.context.iregs rSP
  | none => 0

/-- PC of an optional ARM64 frame (0 when absent). -/
def framePc (o : Option StackFrameARM64) : Nat :=
  match o with
  | some f => f.context.iregs rPC
  | none => 0

/-- `instruction` of an optional ARM64 frame (0 when absent). -/
def frameInstr (o : Option StackFrameARM64) : Nat :=
  match o with
  | some f => f.instruction
  | none => 0

/-- A validity bit of an optional ARM64 frame (false when absent). -/
def frameValidBit (o : Option StackFrameARM64) (j : Nat) : Bool :=
  match o with
  | some f => f.context_validity.testBit j
  | none => false

/-- A register value of an optional ARM64 frame. -/
def frameRegVal (o : Option StackFrameARM64) (i : Fin 33) : Option Nat :=
  match o with
  | some f => some (f.context.iregs i)
  | none => none

/-- `instruction` of an optional PPC64 frame (0 when absent). -/
def ppcInstr (o : Option StackFramePPC64) : Nat :=
  match o with
  | some f => f.instruction
  | none => 0

/-- `srr0` of an optional PPC64 frame (0 when absent). -/
def ppcSrr0 (o : Option StackFramePPC64) : Nat :=
  match o with
  | some f => f.context.srr0
  | none => 0

/-- `gpr[1]` of an optional PPC64 frame (0 when absent). -/
def ppcSp (o : Option StackFramePPC64) : Nat :=
  match o with
  | some f => f.context.gpr g1
  | none => 0


/-- Unfolding of a successful `arm64Finalize`: the walk was not terminated
and the produced frame is the chosen frame with its pre-call instruction. -/
lemma arm64Finalize_some (last_frame f g : StackFrameARM64)
    (h : arm64Finalize last_frame f = some g) :
    TerminateWalk (f.context.iregs rPC) (f.context.iregs rSP)
        (last_frame.context.iregs rSP)
        (last_frame.trust == FrameTrust.context) = false ∧
      g.context = f.context ∧ g.instruction = sub64 (f.context.iregs rPC) 4 := by
  unfold arm64Finalize at h
  split at h
  next hterm => contradiction
  next hterm =>
    have h2 := Option.some.inj h
    rw [← h2]
    exact ⟨Bool.of_not_eq_true hterm, rfl, rfl⟩

/-- Every frame returned by the ARM64 `GetCallerFrame` came from the strategy
chain and survived `arm64Finalize`. -/
lemma getCallerFrame_decomp (w : StackwalkerARM64) (frames : List StackFrameARM64)
    (allowed : Bool) (g : StackFrameARM64)
    (h : w.GetCallerFrame frames allowed = some g) :
    ∃ last_frame f, frames.getLast? = some last_frame ∧
      w.chooseStrategy frames allowed = some f ∧
      arm64Finalize last_frame f = some g := by
  unfold StackwalkerARM64.GetCallerFrame at h
  split at h
  next => contradiction
  next last_frame hl =>
    split at h
    next => contradiction
    next f hc => exact ⟨last_frame, f, hl, hc, h⟩

/-- Unfolding of a successful PPC64 `GetCallerFrame`: the back-chain and
return-address reads succeeded, all checks passed, and the frame's shape. -/
lemma ppc_decomp (w : StackwalkerPPC64) (frames : List StackFramePPC64)
    (allowed : Bool) (g : StackFramePPC64)
    (h : w.GetCallerFrame frames allowed = some g) :
    ∃ last_frame stack_pointer instruction,
      frames.getLast? = some last_frame ∧
      w.memory (last_frame.context.gpr g1) = some stack_pointer ∧
      last_frame.context.gpr g1 < stack_pointer ∧
      w.memory (w64 (stack_pointer + 16)) = some instruction ∧
      1 < instruction ∧
      TerminateWalk instruction stack_pointer (last_frame.context.gpr g1)
        (last_frame.trust == FrameTrust.context) = false ∧
      g = { context := { last_frame.context with
                           srr0 := instruction,
                           gpr := Function.update last_frame.context.gpr g1
                                    stack_pointer },
            context_validity := PPC64_VALID_SRR0 ||| PPC64_VALID_GPR1,
            trust := .fp,
            instruction := sub64 instruction 8 } := by
  unfold StackwalkerPPC64.GetCallerFrame at h
  split at h
  next => contradiction
  next last_frame hl =>
    split at h
    next => contradiction
    next stack_pointer hm =>
      split at h
      next => contradiction
      next hsp =>
        split at h
        next => contradiction
        next instruction hm2 =>
          split at h
          next => contradiction
          next hinstr =>
            split at h
            next => contradiction
            next hterm =>
              exact ⟨last_frame, stack_pointer, instruction, hl, hm,
                Nat.lt_of_not_le hsp, hm2, Nat.lt_of_not_le hinstr,
                Bool.of_not_eq_true hterm, (Option.some.inj h).symm⟩

/-- When the walk does not terminate on a non-first unwind, the caller SP
strictly exceeds the callee SP. -/
lemma terminateWalk_false_not_first (pc sp csp : Nat)
    (h : TerminateWalk pc sp csp false = false) : csp < sp := by
  unfold TerminateWalk at h
  simp only [Bool.ite_eq_false_distrib, if_false, Bool.or_eq_false_iff,
    decide_eq_false_iff_not] at h
  exact Nat.lt_of_not_le h.2

/-- C3: for any frame produced by a walker's GetCallerFrame the caller's SP
strictly exceeds the callee's SP, except for the first unwind from a CONTEXT
frame (the relaxed check); on PPC64 in particular, if the back-chain value
loaded from memory at the callee's stack pointer is less than or equal to
the callee's stack pointer, no caller frame is produced. -/
theorem C3_caller_sp_strictly_increases :
    (∀ (w : StackwalkerARM64) (frames : List StackFrameARM64) (allowed : Bool)
       (last_frame : StackFrameARM64),
       frames.getLast? = some last_frame →
       last_frame.trust ≠ FrameTrust.context →
       (w.GetCallerFrame frames allowed).isSome = true →
       last_frame.context.iregs rSP < frameSp (w.GetCallerFrame frames allowed)) ∧
    (∀ (w : StackwalkerPPC64) (frames : List StackFramePPC64) (allowed : Bool)
       (last_frame : StackFramePPC64) (backchain : Nat),
       frames.getLast? = some last_frame →
       w.memory (last_frame.context.gpr g1) = some backchain →
       backchain ≤ last_frame.context.gpr g1 →
       w.GetCallerFrame frames allowed = none) := by
  constructor
  · intro w frames allowed last_frame hlast hnc hs
    cases hg : w.GetCallerFrame frames allowed with
    | none => rw [hg] at hs; exact absurd hs (by simp)
    | some g =>
      obtain ⟨lf, f, hl2, _, hfin⟩ := getCallerFrame_decomp w frames allowed g hg
      rw [hlast] at hl2
      have hlf := Option.some.inj hl2
      rw [hlf] at hnc ⊢
      obtain ⟨hterm, hctx, _⟩ := arm64Finalize_some lf f g hfin
      have hfu : (lf.trust == FrameTrust.context) = false := by
        simpa using hnc
      rw [hfu] at hterm
      show lf.context.iregs rSP < g.context.iregs rSP
      rw [hctx]
      exact terminateWalk_false_not_first _ _ _ hterm
  · intro w frames allowed last_frame backchain hlast hmem hle
    cases hg : w.GetCallerFrame frames allowed with
    | none => rfl
    | some g =>
      obtain ⟨lf, sp, ins, hl2, hm2, hlt, _, _, _, _⟩ :=
        ppc_decomp w frames allowed g hg
      rw [hlast] at hl2
      have hlf := Option.some.inj hl2
      rw [hlf] at hmem hle
      rw [hmem] at hm2
      have hsp := Option.some.inj hm2
      rw [← hsp] at hlt
      exact absurd hle (Nat.not_le_of_lt hlt)



/-- C5: every frame produced by GetCallerFrame has its `instruction` field
set to the recovered return address minus the ISA call size: the caller PC
minus 4 on ARM64 and the recovered srr0 minus 8 on PPC64 (64-bit
wrap-around subtraction). -/
theorem C5_precall_instruction :
    (∀ (w : StackwalkerARM64) (frames : List StackFrameARM64) (allowed : Bool),
       (w.GetCallerFrame frames allowed).isSome = true →
       frameInstr (w.GetCallerFrame frames allowed) =
         sub64 (framePc (w.GetCallerFrame frames allowed)) 4) ∧
    (∀ (w : StackwalkerPPC64) (frames : List StackFramePPC64) (allowed : Bool),
       (w.GetCallerFrame frames allowed).isSome = true →
       ppcInstr (w.GetCallerFrame frames allowed) =
         sub64 (ppcSrr0 (w.GetCallerFrame frames allowed)) 8) := by
  constructor
  · intro w frames allowed hs
    cases hg : w.GetCallerFrame frames allowed with
    | none => rw [hg] at hs; exact absurd hs (by simp)
    | some g =>
      obtain ⟨lf, f, _, _, hfin⟩ := getCallerFrame_decomp w frames allowed g hg
      obtain ⟨_, hctx, hinstr⟩ := arm64Finalize_some lf f g hfin
      show g.instruction = sub64 (g.context.iregs rPC) 4
      rw [hctx, hinstr]
  · intro w frames allowed hs
    cases hg : w.GetCallerFrame frames allowed with
    | none => rw [hg] at hs; exact absurd hs (by simp)
    | some g =>
      obtain ⟨lf, sp, ins, _, _, _, _, _, _, hgeq⟩ :=
        ppc_decomp w frames allowed g hg
      show g.instruction = sub64 g.context.srr0 8
      rw [hgeq]

/-- C9: on PPC64, when the back-chain and return-address reads succeed and
the candidate return address read at the loaded stack pointer plus 16 is 0
or 1, GetCallerFrame returns no frame: 0 and 1 are end-of-stack sentinels. -/
theorem C9_ppc64_sentinel_return_address (w : StackwalkerPPC64)
    (frames : List StackFramePPC64) (allowed : Bool)
    (last_frame : StackFramePPC64) (backchain ra : Nat)
    (hlast : frames.getLast? = some last_frame)
    (hbp : w.memory (last_frame.context.gpr g1) = some backchain)
    (hra : w.memory (w64 (backchain + 16)) = some ra)
    (h01 : ra = 0 ∨ ra = 1) :
    w.GetCallerFrame frames allowed = none := by
  cases hg : w.GetCallerFrame frames allowed with
  | none => rfl
  | some g =>
    obtain ⟨lf, sp, ins, hl2, hm2, _, hr2, h1lt, _, _⟩ :=
      ppc_decomp w frames allowed g hg
    rw [hlast] at hl2
    have hlf := Option.some.inj hl2
    rw [hlf] at hbp
    rw [hbp] at hm2
    have hsp := Option.some.inj hm2
    rw [← hsp] at hr2
    rw [hra] at hr2
    have hins := Option.some.inj hr2
    rw [← hins] at h1lt
    rcases h01 with h | h <;> omega

/-- C2: the ARM64 GetCallerFrame tries the unwind strategies in priority
order: CFI first (attempted only when CFI frame info covers the callee's
PC), the frame-pointer chain only if the CFI attempt produced no frame,
stack scanning only if scanning is allowed and both CFI and frame pointer
produced no frame, and no frame when all permitted strategies fail. -/
theorem C2_arm64_strategy_priority (w : StackwalkerARM64)
    (frames : List StackFrameARM64) (allowed : Bool)
    (last_frame : StackFrameARM64)
    (hlast : frames.getLast? = some last_frame) :
    (∀ f, w.cfiAttempt frames last_frame = some f →
       w.GetCallerFrame frames allowed = arm64Finalize last_frame f) ∧
    (∀ f, w.cfiAttempt frames last_frame = none →
       w.GetCallerByFramePointer frames = some f →
       w.GetCallerFrame frames allowed = arm64Finalize last_frame f) ∧
    (∀ f, w.cfiAttempt frames last_frame = none →
       w.GetCallerByFramePointer frames = none → allowed = true →
       w.GetCallerByStackScan frames = some f →
       w.GetCallerFrame frames allowed = arm64Finalize last_frame f) ∧
    (w.cfiAttempt frames last_frame = none →
     w.GetCallerByFramePointer frames = none →
     (allowed = false ∨ w.GetCallerByStackScan frames = none) →
     w.GetCallerFrame frames allowed = none) ∧
    (w.findCFIFrameInfo last_frame = none →
     w.cfiAttempt frames last_frame = none) := by
  have hred : w.GetCallerFrame frames allowed =
      (match w.chooseStrategy frames allowed with
       | none => none
       | some f => arm64Finalize last_frame f) := by
    unfold StackwalkerARM64.GetCallerFrame
    rw [hlast]
  have hcs : w.chooseStrategy frames allowed =
      (match w.cfiAttempt frames last_frame with
       | some f => some f
       | none =>
         match w.GetCallerByFramePointer frames with
         | some f => some f
         | none =>
           if allowed then w.GetCallerByStackScan frames else none) := by
    unfold StackwalkerARM64.chooseStrategy
    rw [hlast]
  refine ⟨?_, ?_, ?_, ?_, ?_⟩
  · intro f hcfi
    rw [hred, hcs, hcfi]
  · intro f hcfi hfp
    rw [hred, hcs, hcfi, hfp]
  · intro f hcfi hfp hall hscan
    rw [hred, hcs, hcfi, hfp, hall, if_pos rfl, hscan]
  · intro hcfi hfp hsc
    rcases hsc with hall | hscan
    · rw [hred, hcs, hcfi, hfp, hall]
      rfl
    · rw [hred, hcs, hcfi, hfp]
      cases allowed with
      | false => rfl
      | true => rw [if_pos rfl, hscan]
  · intro hnone
    unfold StackwalkerARM64.cfiAttempt
    rw [hnone]

/-- A symbolizer with no CFI coverage. -/
def exNoCFI : StackFrameARM64 → Option CFIFrameInfo := fun _ => none

/-- A scanner that never finds a return address. -/
def exNoScan : Nat → Bool → Option (Nat × Nat) := fun _ _ => none

/-- A CONTEXT frame whose FP points at unreadable memory. -/
def exCtxFrame : StackFrameARM64 :=
  { instruction := 0x9000, trust := .context,
    context := ⟨fun i => if i = rSP then 0x500 else if i = rFP then 5
                         else if i = rPC then 0x9000 else 0⟩,
    context_validity := 2 ^ 33 - 1 }

/-- A walker with no modules, no readable memory, no CFI and no scanner. -/
def exWalkerEmpty : StackwalkerARM64 :=
  mkStackwalkerARM64 (fun _ => none) [] exNoCFI exNoScan

/-- Witness for C2 at a concrete walker whose strategies all fail. -/
theorem C2_arm64_strategy_priority_witness :
    StackwalkerARM64.GetCallerFrame exWalkerEmpty [exCtxFrame] false = none :=
  (C2_arm64_strategy_priority exWalkerEmpty [exCtxFrame] false exCtxFrame rfl).2.2.2.1
    rfl rfl (Or.inl rfl)

/-- Memory holding a saved FP/LR pair at 0x1000. -/
def exMemFP : Nat → Option Nat := fun a =>
  if a = 0x1000 then some 0x2000 else if a = 0x1008 then some 0x4444 else none

/-- A frame-pointer frame at SP 0x500 with FP 0x1000. -/
def exFpFrame : StackFrameARM64 :=
  { instruction := 0x9000, trust := .fp,
    context := ⟨fun i => if i = rSP then 0x500 else if i = rFP then 0x1000
                         else if i = rLR then 0x9004 else if i = rPC then 0x9000
                         else 0⟩,
    context_validity := 2 ^ 33 - 1 }

/-- A walker that can unwind `exFpFrame` through the frame pointer. -/
def exWalkerFP : StackwalkerARM64 := mkStackwalkerARM64 exMemFP [] exNoCFI exNoScan

/-- A PPC64 context frame with stack pointer 0x100. -/
def exPpcEndFrame : StackFramePPC64 :=
  { instruction := 0, trust := .context,
    context := ⟨0x900, fun i => if i = g1 then 0x100 else 0⟩,
    context_validity := 3 }

/-- PPC64 memory whose back-chain at 0x100 points below the frame. -/
def exPpcWalkerEnd : StackwalkerPPC64 :=
  ⟨fun a => if a = 0x100 then some 0x80 else none⟩

/-- Witness for C3: a concrete frame-pointer unwind with growing SP, and a
concrete PPC64 stack whose back-chain does not grow. -/
theorem C3_caller_sp_strictly_increases_witness :
    exFpFrame.context.iregs rSP <
      frameSp (StackwalkerARM64.GetCallerFrame exWalkerFP [exFpFrame] true) ∧
    StackwalkerPPC64.GetCallerFrame exPpcWalkerEnd [exPpcEndFrame] true = none :=
  ⟨C3_caller_sp_strictly_increases.1 exWalkerFP [exFpFrame] true exFpFrame rfl
     (by decide) rfl,
   C3_caller_sp_strictly_increases.2 exPpcWalkerEnd [exPpcEndFrame] true
     exPpcEndFrame 0x80 rfl rfl (by decide)⟩

/-- PPC64 memory carrying a valid back-chain and return address. -/
def exPpcWalkerOk : StackwalkerPPC64 :=
  ⟨fun a => if a = 0x100 then some 0x200 else if a = 0x210 then some 0x9008
    else none⟩

/-- Witness for C5 at concrete ARM64 and PPC64 unwinds. -/
theorem C5_precall_instruction_witness :
    frameInstr (StackwalkerARM64.GetCallerFrame exWalkerFP [exFpFrame] true) =
      sub64 (framePc (StackwalkerARM64.GetCallerFrame exWalkerFP [exFpFrame] true)) 4 ∧
    ppcInstr (StackwalkerPPC64.GetCallerFrame exPpcWalkerOk [exPpcEndFrame] true) =
      sub64 (ppcSrr0 (StackwalkerPPC64.GetCallerFrame exPpcWalkerOk [exPpcEndFrame] true)) 8 :=
  ⟨C5_precall_instruction.1 exWalkerFP [exFpFrame] true rfl,
   C5_precall_instruction.2 exPpcWalkerOk [exPpcEndFrame] true rfl⟩

/-- PPC64 memory whose return-address slot holds the sentinel 1. -/
def exPpcWalkerSentinel : StackwalkerPPC64 :=
  ⟨fun a => if a = 0x100 then some 0x200 else if a = 0x210 then some 1 else none⟩

/-- Witness for C9 at a concrete stack whose return-address slot holds 1. -/
theorem C9_ppc64_sentinel_return_address_witness :
    StackwalkerPPC64.GetCallerFrame exPpcWalkerSentinel [exPpcEndFrame] true = none :=
  C9_ppc64_sentinel_return_address exPpcWalkerSentinel [exPpcEndFrame] true
    exPpcEndFrame 0x200 1 rfl rfl rfl (Or.inr rfl)

/-- Whether the register-recovery loop marks register `i` valid: the CFI
recovered it, or it is a valid callee-saves register x19..x29. -/
def cfiRecovers (caller : RegisterValueMap) (last_frame : StackFrameARM64)
    (i : Fin 33) : Bool :=
  (caller (regName i.val)).isSome ||
    (decide (19 ≤ i.val) && decide (i.val ≤ 29) &&
      last_frame.context_validity.testBit i.val)

/-- One loop iteration sets exactly bit `i`, and only when the register is
recovered or copied. -/
lemma applyCFIRegister_validity (caller : RegisterValueMap)
    (last_frame f : StackFrameARM64) (i j : Fin 33) :
    (applyCFIRegister caller last_frame f i).context_validity.testBit j.val =
      ((decide (j = i) && cfiRecovers caller last_frame i) ||
        f.context_validity.testBit j.val) := by
  unfold applyCFIRegister cfiRecovers
  cases hc : caller (regName i.val) with
  | some v =>
    simp only [Option.isSome_some, Bool.true_or, Bool.and_true]
    unfold RegisterValidFlag
    rw [Nat.testBit_lor]
    by_cases hij : j = i
    · subst hij
      rw [Nat.testBit_two_pow_self]
      simp
    · rw [Nat.testBit_two_pow_of_ne (fun he => hij (Fin.val_injective he).symm)]
      simp [hij]
  | none =>
    simp only [Option.isSome_none, Bool.false_or]
    split
    next hcond =>
      unfold RegisterValidFlag
      rw [Nat.testBit_lor]
      obtain ⟨h1, h2, h3⟩ := hcond
      by_cases hij : j = i
      · subst hij
        rw [Nat.testBit_two_pow_self]
        simp [h1, h2, h3]
      · rw [Nat.testBit_two_pow_of_ne (fun he => hij (Fin.val_injective he).symm)]
        simp [hij]
    next hcond =>
      by_cases hij : j = i
      · subst hij
        have : (decide (19 ≤ j.val) && decide (j.val ≤ 29) &&
            last_frame.context_validity.testBit j.val) = false := by
          rcases Decidable.em (19 ≤ j.val) with h1 | h1
          · rcases Decidable.em (j.val ≤ 29) with h2 | h2
            · rcases Decidable.em (last_frame.context_validity.testBit j.val = true) with h3 | h3
              · exact absurd ⟨h1, h2, h3⟩ hcond
              · simp [Bool.not_eq_true] at h3
                simp [h3]
            · simp [h2]
          · simp [h1]
        simp [this]
      · simp [hij]

/-- One loop iteration leaves every other register untouched. -/
lemma applyCFIRegister_iregs_ne (caller : RegisterValueMap)
    (last_frame f : StackFrameARM64) (i j : Fin 33) (hij : j ≠ i) :
    (applyCFIRegister caller last_frame f i).context.iregs j =
      f.context.iregs j := by
  cases hc : caller (regName i.val) with
  | some v => simp [applyCFIRegister, hc, setReg, Function.update_noteq hij]
  | none =>
    by_cases hcond : 19 ≤ i.val ∧ i.val ≤ 29 ∧
        last_frame.context_validity.testBit i.val
    · simp [applyCFIRegister, hc, hcond, setReg, Function.update_noteq hij]
    · simp [applyCFIRegister, hc, hcond]

/-- The value one loop iteration stores into its own register. -/
lemma applyCFIRegister_iregs_self (caller : RegisterValueMap)
    (last_frame f : StackFrameARM64) (i : Fin 33) :
    (applyCFIRegister caller last_frame f i).context.iregs i =
      (match caller (regName i.val) with
       | some v => v
       | none =>
         if 19 ≤ i.val ∧ i.val ≤ 29 ∧
             last_frame.context_validity.testBit i.val then
           last_frame.context.iregs i
         else f.context.iregs i) := by
  cases hc : caller (regName i.val) with
  | some v => simp [applyCFIRegister, hc, setReg]
  | none =>
    by_cases hcond : 19 ≤ i.val ∧ i.val ≤ 29 ∧
        last_frame.context_validity.testBit i.val
    · simp [applyCFIRegister, hc, hcond, setReg]
    · simp [applyCFIRegister, hc, hcond]



/-- Validity bits after folding the loop over any index list. -/
lemma fillFold_validity (caller : RegisterValueMap) (last_frame : StackFrameARM64)
    (L : List (Fin 33)) (init : StackFrameARM64) (j : Fin 33) :
    ((L.foldl (applyCFIRegister caller last_frame) init).context_validity.testBit
        j.val) =
      ((decide (j ∈ L) && cfiRecovers caller last_frame j) ||
        init.context_validity.testBit j.val) := by
  induction L generalizing init with
  | nil => simp
  | cons i L ih =>
    rw [List.foldl_cons, ih, applyCFIRegister_validity]
    by_cases hij : j = i
    · subst hij
      cases hrec : cfiRecovers caller last_frame j <;>
        cases hb : init.context_validity.testBit j.val <;>
        by_cases hjL : j ∈ L <;>
        simp [hjL, hrec, hb]
    · simp [hij, List.mem_cons]

/-- Registers outside the processed index list keep their values. -/
lemma fillFold_iregs_not_mem (caller : RegisterValueMap)
    (last_frame : StackFrameARM64) (L : List (Fin 33)) (init : StackFrameARM64)
    (j : Fin 33) (hj : j ∉ L) :
    (L.foldl (applyCFIRegister caller last_frame) init).context.iregs j =
      init.context.iregs j := by
  induction L generalizing init with
  | nil => rfl
  | cons i L ih =>
    have hji : j ≠ i := fun he => hj (he ▸ List.mem_cons_self i L)
    rw [List.foldl_cons, ih _ (fun hmem => hj (List.mem_cons_of_mem i hmem)),
      applyCFIRegister_iregs_ne _ _ _ _ _ hji]

/-- Register values after folding the loop over a duplicate-free index
list. -/
lemma fillFold_iregs_mem (caller : RegisterValueMap)
    (last_frame : StackFrameARM64) (L : List (Fin 33)) (init : StackFrameARM64)
    (j : Fin 33) (hj : j ∈ L) (hnd : L.Nodup) :
    (L.foldl (applyCFIRegister caller last_frame) init).context.iregs j =
      (match caller (regName j.val) with
       | some v => v
       | none =>
         if 19 ≤ j.val ∧ j.val ≤ 29 ∧
             last_frame.context_validity.testBit j.val then
           last_frame.context.iregs j
         else init.context.iregs j) := by
  induction L generalizing init with
  | nil => exact absurd hj (List.not_mem_nil j)
  | cons i L ih =>
    rw [List.foldl_cons]
    by_cases hij : j = i
    · subst hij
      have hjL : j ∉ L := (List.nodup_cons.mp hnd).1
      rw [fillFold_iregs_not_mem _ _ _ _ _ hjL, applyCFIRegister_iregs_self]
    · have hjL : j ∈ L := by
        cases List.mem_cons.mp hj with
        | inl h => exact absurd h hij
        | inr h => exact h
      rw [ih _ hjL (List.nodup_cons.mp hnd).2]
      cases hc : caller (regName j.val) with
      | some v => rfl
      | none =>
        by_cases hcond : 19 ≤ j.val ∧ j.val ≤ 29 ∧
            last_frame.context_validity.testBit j.val
        · simp [hcond]
        · simp [hcond, applyCFIRegister_iregs_ne _ _ _ _ _ hij]

/-- Validity bits of the freshly filled frame are exactly `cfiRecovers`. -/
lemma cfiFillFrame_validity (caller : RegisterValueMap)
    (last_frame : StackFrameARM64) (j : Fin 33) :
    (cfiFillFrame caller last_frame).context_validity.testBit j.val =
      cfiRecovers caller last_frame j := by
  unfold cfiFillFrame
  rw [fillFold_validity]
  simp [List.mem_finRange, Nat.zero_testBit]

/-- Register values of the freshly filled frame. -/
lemma cfiFillFrame_iregs (caller : RegisterValueMap)
    (last_frame : StackFrameARM64) (j : Fin 33) :
    (cfiFillFrame caller last_frame).context.iregs j =
      (match caller (regName j.val) with
       | some v => v
       | none =>
         if 19 ≤ j.val ∧ j.val ≤ 29 ∧
             last_frame.context_validity.testBit j.val then
           last_frame.context.iregs j
         else 0) := by
  unfold cfiFillFrame
  rw [fillFold_iregs_mem _ _ _ _ _ (List.mem_finRange j) (List.nodup_finRange 33)]



/-- The `.ra` fallback validates the PC exactly when it was already valid
or `.ra` was recovered. -/
lemma applyRAFallback_validity_pc (caller : RegisterValueMap)
    (f : StackFrameARM64) :
    (applyRAFallback caller f).context_validity.testBit 32 =
      (f.context_validity.testBit 32 || (caller ".ra").isSome) := by
  unfold applyRAFallback
  by_cases hb : f.context_validity.testBit rPC.val
  · rw [if_pos hb]
    have hb32 : f.context_validity.testBit 32 = true := hb
    rw [hb32]
    rfl
  · rw [if_neg hb]
    have hb32 : f.context_validity.testBit 32 = false := Bool.of_not_eq_true hb
    cases hra : caller ".ra" with
    | some v =>
      simp only [Option.isSome_some, hb32, Bool.false_or]
      show (f.context_validity ||| RegisterValidFlag rPC.val).testBit 32 = true
      rw [Nat.testBit_lor, hb32]
      simp only [Bool.false_or]
      exact Nat.testBit_two_pow_self
    | none => simp [hb32]

/-- The `.ra` fallback changes no validity bit other than the PC's. -/
lemma applyRAFallback_validity_ne (caller : RegisterValueMap)
    (f : StackFrameARM64) (j : Nat) (hj : j ≠ 32) :
    (applyRAFallback caller f).context_validity.testBit j =
      f.context_validity.testBit j := by
  unfold applyRAFallback
  by_cases hb : f.context_validity.testBit rPC.val
  · rw [if_pos hb]
  · rw [if_neg hb]
    cases hra : caller ".ra" with
    | some v =>
      show (f.context_validity ||| RegisterValidFlag rPC.val).testBit j = _
      rw [Nat.testBit_lor]
      have : (RegisterValidFlag rPC.val).testBit j = false := by
        simp [RegisterValidFlag, rPC]
        exact Nat.testBit_two_pow_of_ne (fun he => hj he.symm)
      rw [this]
      simp
    | none => rfl

/-- The `.ra` fallback changes no register other than the PC. -/
lemma applyRAFallback_iregs_ne (caller : RegisterValueMap)
    (f : StackFrameARM64) (i : Fin 33) (hi : i ≠ rPC) :
    (applyRAFallback caller f).context.iregs i = f.context.iregs i := by
  unfold applyRAFallback
  by_cases hb : f.context_validity.testBit rPC.val
  · rw [if_pos hb]
  · rw [if_neg hb]
    cases hra : caller ".ra" with
    | some v =>
      show (setReg f.context rPC v).iregs i = _
      simp [setReg, Function.update_noteq hi]
    | none => rfl

/-- The `.cfa` fallback validates the SP exactly when it was already valid
or `.cfa` was recovered. -/
lemma applyCFAFallback_validity_sp (caller : RegisterValueMap)
    (f : StackFrameARM64) :
    (applyCFAFallback caller f).context_validity.testBit 31 =
      (f.context_validity.testBit 31 || (caller ".cfa").isSome) := by
  unfold applyCFAFallback
  by_cases hb : f.context_validity.testBit rSP.val
  · rw [if_pos hb]
    have hb31 : f.context_validity.testBit 31 = true := hb
    rw [hb31]
    rfl
  · rw [if_neg hb]
    have hb31 : f.context_validity.testBit 31 = false := Bool.of_not_eq_true hb
    cases hcfa : caller ".cfa" with
    | some v =>
      simp only [Option.isSome_some, hb31, Bool.false_or]
      show (f.context_validity ||| RegisterValidFlag rSP.val).testBit 31 = true
      rw [Nat.testBit_lor, hb31]
      simp only [Bool.false_or]
      exact Nat.testBit_two_pow_self
    | none => simp [hb31]

/-- The `.cfa` fallback changes no validity bit other than the SP's. -/
lemma applyCFAFallback_validity_ne (caller : RegisterValueMap)
    (f : StackFrameARM64) (j : Nat) (hj : j ≠ 31) :
    (applyCFAFallback caller f).context_validity.testBit j =
      f.context_validity.testBit j := by
  unfold applyCFAFallback
  by_cases hb : f.context_validity.testBit rSP.val
  · rw [if_pos hb]
  · rw [if_neg hb]
    cases hcfa : caller ".cfa" with
    | some v =>
      show (f.context_validity ||| RegisterValidFlag rSP.val).testBit j = _
      rw [Nat.testBit_lor]
      have : (RegisterValidFlag rSP.val).testBit j = false := by
        simp [RegisterValidFlag, rSP]
        exact Nat.testBit_two_pow_of_ne (fun he => hj he.symm)
      rw [this]
      simp
    | none => rfl

/-- The `.cfa` fallback changes no register other than the SP. -/
lemma applyCFAFallback_iregs_ne (caller : RegisterValueMap)
    (f : StackFrameARM64) (i : Fin 33) (hi : i ≠ rSP) :
    (applyCFAFallback caller f).context.iregs i = f.context.iregs i := by
  unfold applyCFAFallback
  by_cases hb : f.context_validity.testBit rSP.val
  · rw [if_pos hb]
  · rw [if_neg hb]
    cases hcfa : caller ".cfa" with
    | some v =>
      show (setReg f.context rSP v).iregs i = _
      simp [setReg, Function.update_noteq hi]
    | none => rfl



/-- The PC is recovered by the loop exactly when the rules mention `pc`. -/
lemma cfiRecovers_pc (caller : RegisterValueMap) (last_frame : StackFrameARM64) :
    cfiRecovers caller last_frame rPC = (caller "pc").isSome := by
  unfold cfiRecovers
  have h2 : decide ((rPC.val : Nat) ≤ 29) = false := by decide
  rw [h2]
  simp only [Bool.and_false, Bool.false_and, Bool.or_false]
  rfl

/-- The SP is recovered by the loop exactly when the rules mention `sp`. -/
lemma cfiRecovers_sp (caller : RegisterValueMap) (last_frame : StackFrameARM64) :
    cfiRecovers caller last_frame rSP = (caller "sp").isSome := by
  unfold cfiRecovers
  have h2 : decide ((rSP.val : Nat) ≤ 29) = false := by decide
  rw [h2]
  simp only [Bool.and_false, Bool.false_and, Bool.or_false]
  rfl

/-- After the fallbacks the PC is valid exactly when `pc` or `.ra` was
recovered. -/
lemma cfiPipeline_bit_pc (caller : RegisterValueMap)
    (last_frame : StackFrameARM64) :
    (cfiPipeline caller last_frame).context_validity.testBit 32 =
      ((caller "pc").isSome || (caller ".ra").isSome) := by
  unfold cfiPipeline
  rw [applyCFAFallback_validity_ne _ _ 32 (by decide), applyRAFallback_validity_pc]
  have h := cfiFillFrame_validity caller last_frame rPC
  rw [show ((32 : Nat) = rPC.val) from rfl, h, cfiRecovers_pc]

/-- After the fallbacks the SP is valid exactly when `sp` or `.cfa` was
recovered. -/
lemma cfiPipeline_bit_sp (caller : RegisterValueMap)
    (last_frame : StackFrameARM64) :
    (cfiPipeline caller last_frame).context_validity.testBit 31 =
      ((caller "sp").isSome || (caller ".cfa").isSome) := by
  unfold cfiPipeline
  rw [applyCFAFallback_validity_sp, applyRAFallback_validity_ne _ _ 31 (by decide)]
  have h := cfiFillFrame_validity caller last_frame rSP
  rw [show ((31 : Nat) = rSP.val) from rfl, h, cfiRecovers_sp]

/-- The fallbacks do not change the validity of registers x0..x30. -/
lemma cfiPipeline_bit_low (caller : RegisterValueMap)
    (last_frame : StackFrameARM64) (j : Fin 33) (hj : j.val ≤ 30) :
    (cfiPipeline caller last_frame).context_validity.testBit j.val =
      cfiRecovers caller last_frame j := by
  unfold cfiPipeline
  rw [applyCFAFallback_validity_ne _ _ j.val (by omega),
    applyRAFallback_validity_ne _ _ j.val (by omega),
    cfiFillFrame_validity]

/-- The fallbacks do not change the values of registers x0..x30. -/
lemma cfiPipeline_iregs_low (caller : RegisterValueMap)
    (last_frame : StackFrameARM64) (j : Fin 33) (hj : j.val ≤ 30) :
    (cfiPipeline caller last_frame).context.iregs j =
      (match caller (regName j.val) with
       | some v => v
       | none =>
         if 19 ≤ j.val ∧ j.val ≤ 29 ∧
             last_frame.context_validity.testBit j.val then
           last_frame.context.iregs j
         else 0) := by
  unfold cfiPipeline
  rw [applyCFAFallback_iregs_ne _ _ j (by intro he; rw [he] at hj; exact absurd hj (by decide)),
    applyRAFallback_iregs_ne _ _ j (by intro he; rw [he] at hj; exact absurd hj (by decide)),
    cfiFillFrame_iregs]



/-- C4: an ARM64 CFI unwind attempt produces a caller frame only when both
the caller's PC and the caller's SP are recovered, the PC from an explicit
rule or from `.ra` and the SP from an explicit rule or from `.cfa`; if
FindCallerRegs fails or either register is missing after evaluation, the
CFI attempt returns no frame. -/
theorem C4_cfi_requires_pc_and_sp (w : StackwalkerARM64)
    (frames : List StackFrameARM64) (cfi : CFIFrameInfo)
    (last_frame : StackFrameARM64)
    (hlast : frames.getLast? = some last_frame) :
    (cfi (calleeRegMap last_frame) = none →
      w.GetCallerByCFIFrameInfo frames cfi = none) ∧
    (∀ caller, cfi (calleeRegMap last_frame) = some caller →
      ((w.GetCallerByCFIFrameInfo frames cfi).isSome = true ↔
        (((caller "pc").isSome = true ∨ (caller ".ra").isSome = true) ∧
         ((caller "sp").isSome = true ∨ (caller ".cfa").isSome = true)))) := by
  constructor
  · intro hc
    simp only [StackwalkerARM64.GetCallerByCFIFrameInfo, hlast, hc]
  · intro caller hc
    simp only [StackwalkerARM64.GetCallerByCFIFrameInfo, hlast, hc]
    have h31 := cfiPipeline_bit_sp caller last_frame
    have h32 := cfiPipeline_bit_pc caller last_frame
    by_cases hcond : (cfiPipeline caller last_frame).context_validity.testBit rSP.val ∧
        (cfiPipeline caller last_frame).context_validity.testBit rPC.val
    · rw [if_pos hcond]
      simp only [Option.isSome_some, true_iff]
      have hsp : ((caller "sp").isSome || (caller ".cfa").isSome) = true := by
        rw [← h31]; exact hcond.1
      have hpc : ((caller "pc").isSome || (caller ".ra").isSome) = true := by
        rw [← h32]; exact hcond.2
      exact ⟨Bool.or_eq_true_iff.mp hpc, Bool.or_eq_true_iff.mp hsp⟩
    · rw [if_neg hcond]
      simp only [Option.isSome_none, Bool.false_eq_true, false_iff]
      intro hcontra
      apply hcond
      constructor
      · show (cfiPipeline caller last_frame).context_validity.testBit 31 = true
        rw [h31]
        exact Bool.or_eq_true_iff.mpr hcontra.2
      · show (cfiPipeline caller last_frame).context_validity.testBit 32 = true
        rw [h32]
        exact Bool.or_eq_true_iff.mpr hcontra.1



/-- C10: in an ARM64 CFI unwind, every callee-saves register x19 through
x29 that the CFI rules do not mention and whose value is valid in the
callee frame is carried into the produced caller frame with the callee's
value and marked valid; registers x0..x18 and x30, when not mentioned by
the CFI rules, remain invalid in the caller frame. -/
theorem C10_cfi_callee_saves_defaulting (w : StackwalkerARM64)
    (frames : List StackFrameARM64) (cfi : CFIFrameInfo)
    (last_frame : StackFrameARM64) (caller : RegisterValueMap)
    (hlast : frames.getLast? = some last_frame)
    (hc : cfi (calleeRegMap last_frame) = some caller) :
    (∀ i : Fin 33, 19 ≤ i.val → i.val ≤ 29 → caller (regName i.val) = none →
      last_frame.context_validity.testBit i.val = true →
      (w.GetCallerByCFIFrameInfo frames cfi).isSome = true →
      frameValidBit (w.GetCallerByCFIFrameInfo frames cfi) i.val = true ∧
      frameRegVal (w.GetCallerByCFIFrameInfo frames cfi) i =
        some (last_frame.context.iregs i)) ∧
    (∀ i : Fin 33, (i.val ≤ 18 ∨ i.val = 30) → caller (regName i.val) = none →
      frameValidBit (w.GetCallerByCFIFrameInfo frames cfi) i.val = false) := by
  have hred : w.GetCallerByCFIFrameInfo frames cfi =
      (if (cfiPipeline caller last_frame).context_validity.testBit rSP.val ∧
          (cfiPipeline caller last_frame).context_validity.testBit rPC.val then
        some { cfiPipeline caller last_frame with
                 context := setReg (cfiPipeline caller last_frame).context rPC
                   (w.PtrauthStrip
                     ((cfiPipeline caller last_frame).context.iregs rPC)),
                 trust := .cfi }
      else none) := by
    simp only [StackwalkerARM64.GetCallerByCFIFrameInfo, hlast, hc]
  constructor
  · intro i h19 h29 hnone hvalid hsome
    rw [hred] at hsome ⊢
    by_cases hcond : (cfiPipeline caller last_frame).context_validity.testBit rSP.val ∧
        (cfiPipeline caller last_frame).context_validity.testBit rPC.val
    · rw [if_pos hcond]
      have hbit := cfiPipeline_bit_low caller last_frame i (by omega)
      have hreg := cfiPipeline_iregs_low caller last_frame i (by omega)
      constructor
      · show (cfiPipeline caller last_frame).context_validity.testBit i.val = true
        rw [hbit]
        unfold cfiRecovers
        rw [hnone]
        simp [h19, h29, hvalid]
      · show some ((setReg (cfiPipeline caller last_frame).context rPC
            (w.PtrauthStrip ((cfiPipeline caller last_frame).context.iregs rPC))).iregs i) =
          some (last_frame.context.iregs i)
        have hine : i ≠ rPC := by
          intro he
          rw [he] at h29
          exact absurd h29 (by decide)
        rw [show (setReg (cfiPipeline caller last_frame).context rPC
            (w.PtrauthStrip ((cfiPipeline caller last_frame).context.iregs rPC))).iregs i =
            (cfiPipeline caller last_frame).context.iregs i from by
          simp [setReg, Function.update_noteq hine]]
        rw [hreg, hnone]
        simp [h19, h29, hvalid]
    · rw [if_neg hcond] at hsome
      exact absurd hsome (by simp)
  · intro i hlow hnone
    rw [hred]
    by_cases hcond : (cfiPipeline caller last_frame).context_validity.testBit rSP.val ∧
        (cfiPipeline caller last_frame).context_validity.testBit rPC.val
    · rw [if_pos hcond]
      show (cfiPipeline caller last_frame).context_validity.testBit i.val = false
      rw [cfiPipeline_bit_low caller last_frame i (by omega)]
      unfold cfiRecovers
      rw [hnone]
      rcases hlow with h | h
      · have : decide (19 ≤ i.val) = false := by
          apply decide_eq_false
          omega
        rw [this]
        simp
      · have : decide (i.val ≤ 29) = false := by
          apply decide_eq_false
          omega
        rw [this]
        simp
    · rw [if_neg hcond]
      rfl



/-- Recovered caller registers holding only `.ra` and `.cfa`. -/
def exCfiMap : RegisterValueMap := fun s =>
  if s = ".ra" then some 0x20010 else if s = ".cfa" then some 0x30000 else none

/-- CFI frame info whose evaluation always yields `exCfiMap`. -/
def exCfi : CFIFrameInfo := fun _ => some exCfiMap

/-- CFI frame info whose evaluation always fails. -/
def exCfiNone : CFIFrameInfo := fun _ => none

/-- Register index of the callee-saves register x19. -/
def r19 : Fin 33 := ⟨19, by decide⟩

/-- A fully valid callee frame whose x19 holds 0x77. -/
def exCfiCallee : StackFrameARM64 :=
  { instruction := 0, trust := .context,
    context := ⟨fun i => if i = r19 then 0x77 else 0x600⟩,
    context_validity := 2 ^ 33 - 1 }

/-- Witness for C4: a rule map with `.ra` and `.cfa` produces a frame, a
failing evaluation produces none. -/
theorem C4_cfi_requires_pc_and_sp_witness :
    (StackwalkerARM64.GetCallerByCFIFrameInfo exWalkerEmpty [exCfiCallee]
        exCfi).isSome = true ∧
    StackwalkerARM64.GetCallerByCFIFrameInfo exWalkerEmpty [exCfiCallee]
        exCfiNone = none :=
  ⟨((C4_cfi_requires_pc_and_sp exWalkerEmpty [exCfiCallee] exCfi exCfiCallee
        rfl).2 exCfiMap rfl).mpr ⟨Or.inr rfl, Or.inr rfl⟩,
   (C4_cfi_requires_pc_and_sp exWalkerEmpty [exCfiCallee] exCfiNone exCfiCallee
        rfl).1 rfl⟩

/-- Witness for C10: x19 is copied from the callee and marked valid, x0
stays invalid. -/
theorem C10_cfi_callee_saves_defaulting_witness :
    frameValidBit (StackwalkerARM64.GetCallerByCFIFrameInfo exWalkerEmpty
        [exCfiCallee] exCfi) 19 = true ∧
    frameRegVal (StackwalkerARM64.GetCallerByCFIFrameInfo exWalkerEmpty
        [exCfiCallee] exCfi) r19 = some 0x77 ∧
    frameValidBit (StackwalkerARM64.GetCallerByCFIFrameInfo exWalkerEmpty
        [exCfiCallee] exCfi) 0 = false :=
  ⟨((C10_cfi_callee_saves_defaulting exWalkerEmpty [exCfiCallee] exCfi
        exCfiCallee exCfiMap rfl rfl).1 r19 (by decide) (by decide) rfl
        (by decide) rfl).1,
   ((C10_cfi_callee_saves_defaulting exWalkerEmpty [exCfiCallee] exCfi
        exCfiCallee exCfiMap rfl rfl).1 r19 (by decide) (by decide) rfl
        (by decide) rfl).2,
   (C10_cfi_callee_saves_defaulting exWalkerEmpty [exCfiCallee] exCfi
        exCfiCallee exCfiMap rfl rfl).2 ⟨0, by decide⟩ (Or.inl (by decide)) rfl⟩

/-- One smearing step doubles the window of source bits that reach each
result bit. -/
lemma smearStep_prop (m a s : Nat)
    (ha : ∀ i, a.testBit i = true ↔ ∃ d, d < s ∧ m.testBit (i + d) = true) :
    ∀ i, (smearStep a s).testBit i = true ↔
      ∃ d, d < s + s ∧ m.testBit (i + d) = true := by
  intro i
  unfold smearStep
  rw [Nat.testBit_lor, Bool.or_eq_true_iff, Nat.testBit_shiftRight, ha, ha]
  constructor
  · rintro (⟨d, hd, hbit⟩ | ⟨d, hd, hbit⟩)
    · exact ⟨d, by omega, hbit⟩
    · refine ⟨s + d, by omega, ?_⟩
      rw [show i + (s + d) = s + i + d from by omega]
      exact hbit
  · rintro ⟨d, hd, hbit⟩
    by_cases hds : d < s
    · exact Or.inl ⟨d, hds, hbit⟩
    · refine Or.inr ⟨d - s, by omega, ?_⟩
      rw [show s + i + (d - s) = i + d from by omega]
      exact hbit

/-- Bit `i` of the smeared mask is set exactly when some bit of the input
in the window `[i, i+64)` is set. -/
lemma testBit_smearMask (m : Nat) :
    ∀ i, (smearMask m).testBit i = true ↔
      ∃ d, d < 64 ∧ m.testBit (i + d) = true := by
  have h0 : ∀ i, m.testBit i = true ↔ ∃ d, d < 1 ∧ m.testBit (i + d) = true := by
    intro i
    constructor
    · intro h
      exact ⟨0, by omega, by simpa using h⟩
    · rintro ⟨d, hd, hbit⟩
      have hd0 : d = 0 := by omega
      rw [hd0] at hbit
      simpa using hbit
  have h1 := smearStep_prop m m 1 h0
  have h2 := smearStep_prop m _ 2 h1
  have h4 := smearStep_prop m _ 4 h2
  have h8 := smearStep_prop m _ 8 h4
  have h16 := smearStep_prop m _ 16 h8
  have h32 := smearStep_prop m _ 32 h16
  exact h32



/-- For a 64-bit input the smear computes `2 ^ size - 1`: the least
power-of-two minus one at or above the input. -/
lemma smearMask_eq_two_pow_size_sub_one (m : Nat) (hm : m < 2 ^ 64) :
    smearMask m = 2 ^ m.size - 1 := by
  apply Nat.eq_of_testBit_eq
  intro i
  rw [Nat.testBit_two_pow_sub_one]
  by_cases hi : i < m.size
  · rw [decide_eq_true hi]
    have hmpos : 0 < m := by
      rcases Nat.eq_zero_or_pos m with h0 | hpos
      · rw [h0] at hi
        simp [Nat.size_zero] at hi
      · exact hpos
    have hspos : 0 < m.size := Nat.size_pos.mpr hmpos
    have hle : 2 ^ (m.size - 1) ≤ m := Nat.lt_size.mp (by omega)
    have hlt : m < 2 ^ m.size := Nat.lt_size_self m
    have htop : m.testBit (m.size - 1) = true := by
      rw [Nat.testBit_to_div_mod]
      have hdiv : m / 2 ^ (m.size - 1) = 1 := by
        have hub : m / 2 ^ (m.size - 1) < 2 := by
          apply Nat.div_lt_of_lt_mul
          calc m < 2 ^ m.size := hlt
          _ = 2 ^ ((m.size - 1) + 1) := by rw [Nat.sub_add_cancel hspos]
          _ = 2 ^ (m.size - 1) * 2 := by rw [Nat.pow_succ]
        have hlb : 1 ≤ m / 2 ^ (m.size - 1) :=
          (Nat.one_le_div_iff (Nat.pos_pow_of_pos _ (by omega))).mpr hle
        omega
      rw [hdiv]
      decide
    have hsz64 : m.size ≤ 64 := Nat.size_le.mpr hm
    rw [(testBit_smearMask m i).mpr ⟨m.size - 1 - i, by omega, ?_⟩]
    rw [show i + (m.size - 1 - i) = m.size - 1 from by omega]
    exact htop
  · rw [decide_eq_false hi]
    rcases hbit : (smearMask m).testBit i with _ | _
    · rfl
    · obtain ⟨d, _, hb⟩ := (testBit_smearMask m i).mp hbit
      have : m.testBit (i + d) = false := by
        apply Nat.testBit_lt_two_pow
        calc m < 2 ^ m.size := Nat.lt_size_self m
        _ ≤ 2 ^ (i + d) := Nat.pow_le_pow_right (by omega) (by omega)
      rw [this] at hb
      exact absurd hb (by simp)



/-- C1, counterexample: with a single module loaded at base 0x1000 with
size 0x1000 the derived address-range mask is not 0x1FFF as the claim
states (it is 0x3FFF, the smear of the top address 0x2000). -/
theorem C1_mask_counterexample :
    mkAddressRangeMask [⟨0x1000, 0x1000⟩] ≠ 0x1fff := by decide

/-- A walker constructed over a single module at base 0x1000, size 0x1000. -/
def exStripWalker : StackwalkerARM64 :=
  mkStackwalkerARM64 (fun _ => none) [⟨0x1000, 0x1000⟩] (fun _ => none)
    (fun _ _ => none)

/-- C1, amended: PtrauthStrip returns the pointer ANDed with the
address-range mask when the stripped value lies inside some loaded module
and the original pointer otherwise; for a constructed walker the mask is
the highest-loaded module's top address rounded up to a power-of-two minus
one (the least such value); with a single module at base 0x1000, size
0x1000 the mask is 0x3FFF, LR 0xdeadbeef00001234 is replaced with 0x1234
and LR 0xdeadbeef is retained. -/
theorem C1_ptrauth_strip (w : StackwalkerARM64) (ptr : Nat) :
    ((∃ m ∈ w.modules,
        moduleContains m (ptr &&& w.address_range_mask) = true) →
      w.PtrauthStrip ptr = ptr &&& w.address_range_mask) ∧
    ((¬ ∃ m ∈ w.modules,
        moduleContains m (ptr &&& w.address_range_mask) = true) →
      w.PtrauthStrip ptr = ptr) ∧
    (∀ high_module : CodeModule,
      w.address_range_mask = mkAddressRangeMask w.modules →
      w.modules.getLast? = some high_module →
      high_module.base_address + high_module.size < WORD →
      ∃ k, w.address_range_mask = 2 ^ k - 1 ∧
        high_module.base_address + high_module.size ≤ 2 ^ k - 1 ∧
        ∀ j, high_module.base_address + high_module.size ≤ 2 ^ j - 1 →
          2 ^ k - 1 ≤ 2 ^ j - 1) ∧
    mkAddressRangeMask [⟨0x1000, 0x1000⟩] = 0x3fff ∧
    exStripWalker.PtrauthStrip 0xdeadbeef00001234 = 0x1234 ∧
    exStripWalker.PtrauthStrip 0xdeadbeef = 0xdeadbeef := by
  refine ⟨?_, ?_, ?_, by decide, by decide, by decide⟩
  · intro hex
    unfold StackwalkerARM64.PtrauthStrip
    rw [if_pos ?_]
    unfold GetModuleForAddress
    exact List.find?_isSome.mpr hex
  · intro hnex
    unfold StackwalkerARM64.PtrauthStrip
    rw [if_neg ?_]
    unfold GetModuleForAddress
    intro hsome
    exact hnex (List.find?_isSome.mp hsome)
  · intro high_module hmask hlastmod htop
    have htopw : w64 (high_module.base_address + high_module.size) =
        high_module.base_address + high_module.size := Nat.mod_eq_of_lt htop
    have hmask2 : w.address_range_mask =
        smearMask (high_module.base_address + high_module.size) := by
      rw [hmask]
      simp only [mkAddressRangeMask, hlastmod, htopw]
    refine ⟨(high_module.base_address + high_module.size).size, ?_, ?_, ?_⟩
    · rw [hmask2]
      exact smearMask_eq_two_pow_size_sub_one _ htop
    · have h1 := Nat.lt_size_self (high_module.base_address + high_module.size)
      omega
    · intro j hj
      have hsz : (high_module.base_address + high_module.size).size ≤ j := by
        apply Nat.size_le.mpr
        have hj2 : (0:Nat) < 2 ^ j := Nat.pos_pow_of_pos _ (by omega)
        omega
      have := Nat.pow_le_pow_right (show 0 < 2 by omega) hsz
      omega

/-- Witness for C1 at the concrete single-module walker. -/
theorem C1_ptrauth_strip_witness :
    exStripWalker.PtrauthStrip 0xdeadbeef00001234 =
      0xdeadbeef00001234 &&& exStripWalker.address_range_mask ∧
    exStripWalker.PtrauthStrip 0xdeadbeef = 0xdeadbeef ∧
    (∃ k, exStripWalker.address_range_mask = 2 ^ k - 1 ∧
      (0x1000 : Nat) + 0x1000 ≤ 2 ^ k - 1 ∧
      ∀ j, (0x1000 : Nat) + 0x1000 ≤ 2 ^ j - 1 → 2 ^ k - 1 ≤ 2 ^ j - 1) :=
  ⟨(C1_ptrauth_strip exStripWalker 0xdeadbeef00001234).1
     ⟨⟨0x1000, 0x1000⟩, by decide, by decide⟩,
   (C1_ptrauth_strip exStripWalker 0xdeadbeef).2.1 (by decide),
   (C1_ptrauth_strip exStripWalker 0).2.2.1 ⟨0x1000, 0x1000⟩ rfl rfl (by decide)⟩

/-- Modelled from the spec: the resolver's address lookup (the
basic_source_line_resolver and fast_source_line_resolver sources are not
under src/).  Per the spec, lookup uses the largest start at or below the
query; on the address-sorted store this is the last entry whose start does
not exceed the query. -/
def assocFindLE {β : Type} (l : List (Nat × β)) (addr : Nat) : Option (Nat × β) :=
  match l with
  | [] => none
  | e :: rest =>
    if e.1 ≤ addr then
      match assocFindLE rest addr with
      | some r => some r
      | none => some e
    else none

/-- Unfolding equation of `assocFindLE` on a cons cell. -/
lemma assocFindLE_cons {β : Type} (e : Nat × β) (rest : List (Nat × β))
    (addr : Nat) :
    assocFindLE (e :: rest) addr =
      (if e.1 ≤ addr then
        match assocFindLE rest addr with
        | some r => some r
        | none => some e
      else none) := rfl

/-- Lookup on a list of entries that all start above the query finds
nothing. -/
lemma assocFindLE_none {β : Type} (l : List (Nat × β)) (addr : Nat)
    (h : ∀ x ∈ l, addr < x.1) : assocFindLE l addr = none := by
  cases l with
  | nil => rfl
  | cons e rest =>
    rw [assocFindLE_cons, if_neg]
    exact Nat.not_le_of_lt (h e (List.mem_cons_self e rest))

/-- On a store split into a low and a high part, lookup prefers the high
part and falls back to the low part. -/
lemma assocFindLE_append {β : Type} (addr : Nat) (l1 l2 : List (Nat × β))
    (hsep : ∀ x ∈ l1, ∀ y ∈ l2, x.1 < y.1) :
    assocFindLE (l1 ++ l2) addr =
      (match assocFindLE l2 addr with
       | some r => some r
       | none => assocFindLE l1 addr) := by
  induction l1 with
  | nil =>
    simp only [List.nil_append]
    cases assocFindLE l2 addr <;> rfl
  | cons e l1 ih =>
    have hsep2 : ∀ x ∈ l1, ∀ y ∈ l2, x.1 < y.1 := fun x hx =>
      hsep x (List.mem_cons_of_mem e hx)
    rw [List.cons_append, assocFindLE_cons, assocFindLE_cons, ih hsep2]
    by_cases he : e.1 ≤ addr
    · rw [if_pos he, if_pos he]
      cases h2 : assocFindLE l2 addr with
      | some r => cases assocFindLE l1 addr <;> rfl
      | none => cases assocFindLE l1 addr <;> rfl
    · rw [if_neg he, if_neg he]
      have h2 : assocFindLE l2 addr = none := by
        apply assocFindLE_none
        intro y hy
        exact Nat.lt_trans (Nat.lt_of_not_le he)
          (hsep e (List.mem_cons_self e l1) y hy)
      rw [h2]



/-- Modelled from the spec: the binary search of the serialized (fast)
resolver backend over its immutable flat table, returning the entry with
the largest start at or below the query within `[lo, hi)`.  Fuel bounds
the recursion. -/
def bsearchGo {β : Type} (A : Array (Nat × β)) (addr : Nat) :
    Nat → Nat → Nat → Option (Nat × β)
  | 0, _, _ => none
  | fuel + 1, lo, hi =>
    if lo < hi then
      match A.get? ((lo + hi) / 2) with
      | none => none
      | some e =>
        if e.1 ≤ addr then
          match bsearchGo A addr fuel ((lo + hi) / 2 + 1) hi with
          | some r => some r
          | none => some e
        else bsearchGo A addr fuel lo ((lo + hi) / 2)
    else none

/-- A slice `[lo, hi)` splits at any interior point. -/
lemma slice_split {γ : Type} (l : List γ) (lo mid hi : Nat) (h1 : lo ≤ mid)
    (h2 : mid ≤ hi) :
    (l.drop lo).take (hi - lo) =
      (l.drop lo).take (mid - lo) ++ (l.drop mid).take (hi - mid) := by
  rw [show hi - lo = (mid - lo) + (hi - mid) from by omega, List.take_add]
  have hdd : (l.drop lo).drop (mid - lo) = l.drop mid := by
    rw [List.drop_drop]
    congr 1
    omega
  rw [hdd]

/-- A nonempty slice starts with the element at its lower bound. -/
lemma slice_cons {γ : Type} (l : List γ) (mid hi : Nat) (hlen : mid < l.length)
    (hmh : mid < hi) :
    (l.drop mid).take (hi - mid) =
      l.get ⟨mid, hlen⟩ :: (l.drop (mid + 1)).take (hi - (mid + 1)) := by
  rw [List.drop_eq_getElem_cons hlen,
    show hi - mid = (hi - (mid + 1)) + 1 from by omega, List.take_succ_cons]
  rfl

/-- Every slice is a sublist of the underlying list. -/
lemma slice_sublist {γ : Type} (l : List γ) (lo n : Nat) :
    ((l.drop lo).take n).Sublist l :=
  ((l.drop lo).take_sublist n).trans (l.drop_sublist lo)



/-- Correctness of the binary search: on a sorted table it computes exactly
the linear largest-start-at-or-below lookup of the slice. -/
lemma bsearchGo_eq {β : Type} (l : List (Nat × β)) (addr : Nat)
    (hs : l.Pairwise (fun a b => a.1 < b.1)) :
    ∀ (fuel lo hi : Nat), hi ≤ l.length → hi - lo ≤ fuel →
      bsearchGo l.toArray addr fuel lo hi =
        assocFindLE ((l.drop lo).take (hi - lo)) addr := by
  intro fuel
  induction fuel with
  | zero =>
    intro lo hi hlen hfuel
    have : hi - lo = 0 := by omega
    rw [this]
    rfl
  | succ fuel ih =>
    intro lo hi hlen hfuel
    by_cases hlh : lo < hi
    · have hmid1 : lo ≤ (lo + hi) / 2 := by omega
      have hmid2 : (lo + hi) / 2 < hi := by omega
      have hmlen : (lo + hi) / 2 < l.length := by omega
      have hget : l.toArray.get? ((lo + hi) / 2) =
          some (l.get ⟨(lo + hi) / 2, hmlen⟩) := by
        rw [Array.get?_eq_get?_toList, Array.toList_toArray,
          List.get?_eq_getElem?, List.getElem?_eq_getElem hmlen]
        rfl
      have hsplit := slice_split l lo ((lo + hi) / 2) hi hmid1 (Nat.le_of_lt hmid2)
      have hconsl := slice_cons l ((lo + hi) / 2) hi hmlen hmid2
      have hsorted : (((l.drop lo).take (hi - lo)).Pairwise
          (fun a b : Nat × β => a.1 < b.1)) :=
        hs.sublist (slice_sublist l lo (hi - lo)) |>.imp (fun h => h)
      rw [hsplit, hconsl] at hsorted
      have hsep := (List.pairwise_append.mp hsorted).2.2
      show (if lo < hi then _ else _) = _
      rw [if_pos hlh, hget]
      dsimp only
      rw [hsplit, hconsl, assocFindLE_append addr _ _ hsep, assocFindLE_cons]
      by_cases he : (l.get ⟨(lo + hi) / 2, hmlen⟩).1 ≤ addr
      · rw [if_pos he, if_pos he, ih ((lo + hi) / 2 + 1) hi hlen (by omega)]
        cases assocFindLE ((l.drop ((lo + hi) / 2 + 1)).take
            (hi - ((lo + hi) / 2 + 1))) addr <;> rfl
      · rw [if_neg he, if_neg he, ih lo ((lo + hi) / 2) (by omega) (by omega)]
    · show (if lo < hi then _ else _) = _
      rw [if_neg hlh]
      have : hi - lo = 0 := by omega
      rw [this]
      rfl



/-- Lookup of the serialized backend over the whole flat table. -/
def staticFindLE {β : Type} (A : Array (Nat × β)) (addr : Nat) :
    Option (Nat × β) :=
  bsearchGo A addr (A.size + 1) 0 A.size

/-- The serialized lookup agrees with the basic lookup on every serialized
sorted store. -/
lemma staticFindLE_toArray {β : Type} (l : List (Nat × β)) (addr : Nat)
    (hs : l.Pairwise (fun a b => a.1 < b.1)) :
    staticFindLE l.toArray addr = assocFindLE l addr := by
  unfold staticFindLE
  rw [Array.size_toArray,
    bsearchGo_eq l addr hs (l.length + 1) 0 l.length (Nat.le_refl _) (by omega)]
  rw [List.drop_zero, Nat.sub_zero, List.take_length]

/-- A parsed line record: size, source file id and line number. -/
structure SymLineRec where
  size : Nat
  file_id : Nat
  line_num : Nat
deriving DecidableEq

/-- A parsed FUNC record with its attached line records (keyed by
address). -/
structure SymFunc where
  name : String
  size : Nat
  param_size : Nat
  is_multiple : Bool
  lines : List (Nat × SymLineRec)
deriving DecidableEq

/-- A parsed PUBLIC record. -/
structure SymPublic where
  name : String
  param_size : Nat
  is_multiple : Bool
deriving DecidableEq

/-- A parsed STACK WIN record (the fields the queries expose). -/
structure SymWinFrame where
  size : Nat
  type_ : Nat
  prolog_size : Nat
  program_string : String
deriving DecidableEq

/-- A parsed STACK CFI INIT record with its delta rules. -/
structure SymCFI where
  size : Nat
  init_rules : String
  deltas : List (Nat × String)
deriving DecidableEq

/-- Modelled from the spec: the basic (tree/map) resolver module, one
address-sorted store per record kind. -/
structure SymModule where
  functions : List (Nat × SymFunc)
  publics : List (Nat × SymPublic)
  win_frames : List (Nat × SymWinFrame)
  cfi_entries : List (Nat × SymCFI)
deriving DecidableEq

/-- Range lookup per the spec: largest start at or below the query, then
verify the query is within `[start, start + size)`. -/
def rangeLookup {β : Type} (getSize : β → Nat) (l : List (Nat × β))
    (addr : Nat) : Option (Nat × β) :=
  match assocFindLE l addr with
  | some e => if addr < e.1 + getSize e.2 then some e else none
  | none => none

/-- The serialized backend's range lookup. -/
def staticRangeLookup {β : Type} (getSize : β → Nat) (A : Array (Nat × β))
    (addr : Nat) : Option (Nat × β) :=
  match staticFindLE A addr with
  | some e => if addr < e.1 + getSize e.2 then some e else none
  | none => none

/-- The serialized range lookup agrees with the basic one on sorted
stores. -/
lemma staticRangeLookup_toArray {β : Type} (getSize : β → Nat)
    (l : List (Nat × β)) (addr : Nat)
    (hs : l.Pairwise (fun a b => a.1 < b.1)) :
    staticRangeLookup getSize l.toArray addr = rangeLookup getSize l addr := by
  unfold staticRangeLookup rangeLookup
  rw [staticFindLE_toArray l addr hs]

/-- The observable output of `fill_source_line_info`. -/
structure SourceLineResult where
  found : Bool
  function_name : String
  function_base : Nat
  param_size : Nat
  is_multiple : Bool
  source_file_id : Nat
  source_line : Nat
  source_line_base : Nat
deriving DecidableEq

/-- Result when no function or public symbol covers the address. -/
def emptySourceLineResult : SourceLineResult :=
  ⟨false, "", 0, 0, false, 0, 0, 0⟩

/-- Modelled from the spec: `fill_source_line_info` on the basic backend:
function lookup first, line lookup within the function, public symbols as
fallback (FUNC preferred over PUBLIC). -/
def fillSourceLineInfo (m : SymModule) (addr : Nat) : SourceLineResult :=
  match rangeLookup (fun f => f.size) m.functions addr with
  | some (fbase, f) =>
    match rangeLookup (fun ln => ln.size) f.lines addr with
    | some (lbase, ln) =>
      { found := true, function_name := f.name, function_base := fbase,
        param_size := f.param_size, is_multiple := f.is_multiple,
        source_file_id := ln.file_id, source_line := ln.line_num,
        source_line_base := lbase }
    | none =>
      { found := true, function_name := f.name, function_base := fbase,
        param_size := f.param_size, is_multiple := f.is_multiple,
        source_file_id := 0, source_line := 0, source_line_base := 0 }
  | none =>
    match assocFindLE m.publics addr with
    | some (pbase, p) =>
      { found := true, function_name := p.name, function_base := pbase,
        param_size := p.param_size, is_multiple := p.is_multiple,
        source_file_id := 0, source_line := 0, source_line_base := 0 }
    | none => emptySourceLineResult

/-- Modelled from the spec: `find_windows_frame_info` on the basic
backend. -/
def findWindowsFrameInfo (m : SymModule) (addr : Nat) :
    Option (Nat × SymWinFrame) :=
  rangeLookup (fun w => w.size) m.win_frames addr

/-- Modelled from the spec: `find_cfi_frame_info` on the basic backend: the
covering INIT record's rules together with the delta rules at or below the
query address. -/
def findCFIFrameInfo (m : SymModule) (addr : Nat) :
    Option (String × List (Nat × String)) :=
  match rangeLookup (fun c => c.size) m.cfi_entries addr with
  | some (_, c) =>
    some (c.init_rules, c.deltas.filter (fun d => decide (d.1 ≤ addr)))
  | none => none

/-- Modelled from the spec: the serialized (fast) resolver module, an
immutable flat table per record kind, usable without re-parsing. -/
structure FastSymModule where
  functions : Array (Nat × SymFunc)
  publics : Array (Nat × SymPublic)
  win_frames : Array (Nat × SymWinFrame)
  cfi_entries : Array (Nat × SymCFI)

/-- Modelled from the spec: serialization of a basic module into the flat
form (module_serializer.cc is not under src/). -/
def serializeModule (m : SymModule) : FastSymModule :=
  ⟨m.functions.toArray, m.publics.toArray, m.win_frames.toArray,
    m.cfi_entries.toArray⟩

/-- `fill_source_line_info` on the serialized backend, by binary search. -/
def fastFillSourceLineInfo (m : FastSymModule) (addr : Nat) :
    SourceLineResult :=
  match staticRangeLookup (fun f => f.size) m.functions addr with
  | some (fbase, f) =>
    match rangeLookup (fun ln => ln.size) f.lines addr with
    | some (lbase, ln) =>
      { found := true, function_name := f.name, function_base := fbase,
        param_size := f.param_size, is_multiple := f.is_multiple,
        source_file_id := ln.file_id, source_line := ln.line_num,
        source_line_base := lbase }
    | none =>
      { found := true, function_name := f.name, function_base := fbase,
        param_size := f.param_size, is_multiple := f.is_multiple,
        source_file_id := 0, source_line := 0, source_line_base := 0 }
  | none =>
    match staticFindLE m.publics addr with
    | some (pbase, p) =>
      { found := true, function_name := p.name, function_base := pbase,
        param_size := p.param_size, is_multiple := p.is_multiple,
        source_file_id := 0, source_line := 0, source_line_base := 0 }
    | none => emptySourceLineResult

/-- `find_windows_frame_info` on the serialized backend. -/
def fastFindWindowsFrameInfo (m : FastSymModule) (addr : Nat) :
    Option (Nat × SymWinFrame) :=
  staticRangeLookup (fun w => w.size) m.win_frames addr

/-- `find_cfi_frame_info` on the serialized backend. -/
def fastFindCFIFrameInfo (m : FastSymModule) (addr : Nat) :
    Option (String × List (Nat × String)) :=
  match staticRangeLookup (fun c => c.size) m.cfi_entries addr with
  | some (_, c) =>
    some (c.init_rules, c.deltas.filter (fun d => decide (d.1 ≤ addr)))
  | none => none

/-- An address-sorted store: strictly increasing starts. -/
abbrev sortedKeys {β : Type} (l : List (Nat × β)) : Prop :=
  l.Pairwise (fun a b => a.1 < b.1)

/-- Well-formedness of a parsed module: each store is address-sorted, as
produced by the map-backed parse. -/
def SymModuleWF (m : SymModule) : Prop :=
  sortedKeys m.functions ∧ sortedKeys m.publics ∧ sortedKeys m.win_frames ∧
    sortedKeys m.cfi_entries

/-- C6: for every symbol-file input (given as its parsed, well-formed
module) the serialized flat-buffer backend and the non-serialized tree
backend return identical results for every query API:
fill_source_line_info, find_windows_frame_info and find_cfi_frame_info, at
every address; parse-serialize-query equals parse-query. -/
theorem C6_serialized_resolver_equivalence (m : SymModule)
    (hwf : SymModuleWF m) (addr : Nat) :
    fastFillSourceLineInfo (serializeModule m) addr = fillSourceLineInfo m addr ∧
    fastFindWindowsFrameInfo (serializeModule m) addr =
      findWindowsFrameInfo m addr ∧
    fastFindCFIFrameInfo (serializeModule m) addr = findCFIFrameInfo m addr := by
  obtain ⟨h1, h2, h3, h4⟩ := hwf
  refine ⟨?_, ?_, ?_⟩
  · unfold fastFillSourceLineInfo fillSourceLineInfo serializeModule
    rw [staticRangeLookup_toArray _ _ _ h1, staticFindLE_toArray _ _ h2]
  · unfold fastFindWindowsFrameInfo findWindowsFrameInfo serializeModule
    rw [staticRangeLookup_toArray _ _ _ h3]
  · unfold fastFindCFIFrameInfo findCFIFrameInfo serializeModule
    rw [staticRangeLookup_toArray _ _ _ h4]



/-- A concrete module with functions, lines, publics, STACK WIN and CFI. -/
def exSymModule : SymModule :=
  { functions := [(0x1000, ⟨"Function1_1", 0x100, 4, true,
       [(0x1000, ⟨0x80, 1, 44⟩)]⟩),
     (0x2000, ⟨"Function1_2", 0x50, 0, false, []⟩)],
    publics := [(0x2900, ⟨"PublicSymbol", 0, true⟩)],
    win_frames := [(0x1000, ⟨0x100, 2, 1, "prog"⟩)],
    cfi_entries := [(0x3d40, ⟨0xb0, "init rules", [(0x3d41, "delta1")]⟩)] }

/-- Witness for C6 at a concrete module and address. -/
theorem C6_serialized_resolver_equivalence_witness :
    fastFillSourceLineInfo (serializeModule exSymModule) 0x1010 =
      fillSourceLineInfo exSymModule 0x1010 ∧
    fastFindWindowsFrameInfo (serializeModule exSymModule) 0x1010 =
      findWindowsFrameInfo exSymModule 0x1010 ∧
    fastFindCFIFrameInfo (serializeModule exSymModule) 0x1010 =
      findCFIFrameInfo exSymModule 0x1010 :=
  C6_serialized_resolver_equivalence exSymModule
    ⟨by decide, by decide, by decide, by decide⟩ 0x1010

/-- Value of one lowercase hexadecimal digit. -/
def hexDigitVal (c : Char) : Option Nat :=
  if c.isDigit then some (c.toNat - 48)
  else if 97 ≤ c.toNat ∧ c.toNat ≤ 102 then some (c.toNat - 87)
  else none

/-- Hex number without prefix, as used for addresses and sizes. -/
def parseHexNum (s : String) : Option Nat :=
  if s.isEmpty then none
  else
    s.data.foldl
      (fun acc c =>
        match acc, hexDigitVal c with
        | some a, some d => some (a * 16 + d)
        | _, _ => none)
      (some 0)

/-- Decimal number, as used for line numbers and file ids. -/
def parseDecNum (s : String) : Option Nat :=
  if s.isEmpty then none
  else
    s.data.foldl
      (fun acc c =>
        match acc, (if c.isDigit then some (c.toNat - 48) else none) with
        | some a, some d => some (a * 16 + d)
        | _, _ => none)
      (some 0)

/-- Modelled from the spec: the state of the line-oriented symbol-file
parser (basic_source_line_resolver.cc and module parsing are not under
src/): the interned FILE table, the finished functions, the FUNC currently
collecting line records, and the public symbols. -/
structure ParserState where
  has_module_record : Bool
  files : List (Nat × String)
  finished : List (Nat × SymFunc)
  current : Option (Nat × SymFunc)
  publics : List (Nat × SymPublic)

/-- State before the first line. -/
def initParserState : ParserState := ⟨false, [], [], none, []⟩

/-- Close the function currently being collected, if any. -/
def flushFunction (s : ParserState) : List (Nat × SymFunc) :=
  match s.current with
  | some f => s.finished ++ [f]
  | none => s.finished

/-- Strip the optional `m` multiple flag of FUNC and PUBLIC records. -/
def parseFuncTokens (toks : List String) : Option (Bool × List String) :=
  match toks with
  | "m" :: rest => some (true, rest)
  | rest => some (false, rest)

/-- Modelled from the spec: one line of the symbol-file grammar, given as
its whitespace-separated tokens, applied to the parser state.  `none` is a
malformed line in this state: an unknown keyword, a bad number, a
duplicate FILE id, or a line record outside a FUNC.  The modelled subset
covers MODULE, INFO, FILE, FUNC, PUBLIC and line records; name fields may
contain spaces. -/
def parseRecord (s : ParserState) (line : List String) : Option ParserState :=
  match line with
  | "MODULE" :: _os :: _arch :: _id :: _n :: _rest =>
    some { s with has_module_record := true }
  | "FILE" :: id :: path :: [] =>
    match parseDecNum id with
    | some n =>
      if (s.files.find? (fun e => e.1 == n)).isSome then none
      else some { s with files := s.files ++ [(n, path)] }
    | none => none
  | "FUNC" :: rest =>
    match parseFuncTokens rest with
    | some (mult, addr :: size :: psize :: n0 :: nrest) =>
      match parseHexNum addr, parseHexNum size, parseHexNum psize with
      | some a, some sz, some ps =>
        some { s with
                 finished := flushFunction s,
                 current := some (a,
                   { name := String.intercalate " " (n0 :: nrest),
                     size := sz, param_size := ps, is_multiple := mult,
                     lines := [] }) }
      | _, _, _ => none
    | _ => none
  | "PUBLIC" :: rest =>
    match parseFuncTokens rest with
    | some (mult, addr :: psize :: n0 :: nrest) =>
      match parseHexNum addr, parseHexNum psize with
      | some a, some ps =>
        some { s with
                 publics := s.publics ++ [(a,
                   { name := String.intercalate " " (n0 :: nrest),
                     param_size := ps, is_multiple := mult })] }
      | _, _ => none
    | _ => none
  | "INFO" :: _rest => some s
  | addr :: size :: linenum :: fileid :: [] =>
    match parseHexNum addr, parseHexNum size, parseDecNum linenum,
        parseDecNum fileid with
    | some a, some sz, some ln, some fid =>
      match s.current with
      | some (fa, f) =>
        some { s with
                 current := some (fa,
                   { f with lines := f.lines ++ [(a, ⟨sz, fid, ln⟩)] }) }
      | none => none
    | _, _, _, _ => none
  | _ => none

/-- Modelled from the spec: the parsing loop.  A malformed line flags the
module as corrupt and is skipped; parsing never aborts. -/
def runParser : List (List String) → ParserState → ParserState × Bool
  | [], s => (s, false)
  | line :: rest, s =>
    match parseRecord s line with
    | some s2 => runParser rest s2
    | none => ((runParser rest s).1, true)

/-- The module exposed after parsing. -/
def finishModule (s : ParserState) : SymModule :=
  { functions := flushFunction s, publics := s.publics,
    win_frames := [], cfi_entries := [] }

/-- Modelled from the spec: `load_module` over the tokenized lines,
returning the parsed module and its is_corrupt flag. -/
def loadModule (lines : List (List String)) : SymModule × Bool :=
  ((finishModule (runParser lines initParserState).1),
    (runParser lines initParserState).2)

/-- The basic resolver: loaded modules keyed by code file, with their
corrupt flags. -/
def Resolver : Type := List (String × SymModule × Bool)

/-- `has_module` on the basic resolver. -/
def hasModule (r : Resolver) (code_file : String) : Bool :=
  (r.find? (fun e => e.1 == code_file)).isSome

/-- `IsModuleCorrupt` on the basic resolver. -/
def isModuleCorrupt (r : Resolver) (code_file : String) : Bool :=
  match r.find? (fun e => e.1 == code_file) with
  | some e => e.2.2
  | none => false

/-- `load_module` into a resolver. -/
def loadInto (r : Resolver) (code_file : String)
    (lines : List (List String)) : Resolver :=
  (code_file, loadModule lines) :: r

/-- The fast resolver: serialized modules with their corrupt flags. -/
def FastResolver : Type := List (String × FastSymModule × Bool)

/-- `has_module` on the fast resolver. -/
def fastHasModule (r : FastResolver) (code_file : String) : Bool :=
  (r.find? (fun e => e.1 == code_file)).isSome

/-- `IsModuleCorrupt` on the fast resolver. -/
def fastIsModuleCorrupt (r : FastResolver) (code_file : String) : Bool :=
  match r.find? (fun e => e.1 == code_file) with
  | some e => e.2.2
  | none => false

/-- Modelled from the spec: `ModuleSerializer::ConvertOneModule`, copying
one loaded module into the fast resolver, corrupt flag included. -/
def convertOneModule (r : Resolver) (fr : FastResolver) (code_file : String) :
    FastResolver :=
  match r.find? (fun e => e.1 == code_file) with
  | some (n, m, c) => (n, serializeModule m, c) :: fr
  | none => fr

/-- Unfolding equation of the parsing loop on one line. -/
lemma runParser_cons (line : List String) (rest : List (List String))
    (s : ParserState) :
    runParser (line :: rest) s =
      (match parseRecord s line with
       | some s2 => runParser rest s2
       | none => ((runParser rest s).1, true)) := rfl

/-- The parsing loop composes over concatenation; the corrupt flag is the
disjunction of the two halves. -/
lemma runParser_append (l1 l2 : List (List String)) (s : ParserState) :
    runParser (l1 ++ l2) s =
      ((runParser l2 (runParser l1 s).1).1,
        (runParser l1 s).2 || (runParser l2 (runParser l1 s).1).2) := by
  induction l1 generalizing s with
  | nil => simp [runParser]
  | cons line l1 ih =>
    rw [List.cons_append, runParser_cons, runParser_cons]
    cases hp : parseRecord s line with
    | some s2 =>
      dsimp only
      rw [ih s2]
    | none =>
      dsimp only
      rw [ih s]
      simp



/-- C7: loading a symbol file containing a malformed line succeeds with
corruption: the corrupt flag is set, has_module subsequently answers true,
the module is flagged corrupt, the successfully parsed portion is exactly
the parse of the input without the malformed line (so it remains
queryable), and the corrupt flag is preserved when the module is
serialized into the fast resolver backend. -/
theorem C7_corrupt_symbol_file (pre post : List (List String))
    (bad : List String) (hbad : ∀ s, parseRecord s bad = none)
    (r : Resolver) (code_file : String) :
    (loadModule (pre ++ bad :: post)).2 = true ∧
    hasModule (loadInto r code_file (pre ++ bad :: post)) code_file = true ∧
    isModuleCorrupt (loadInto r code_file (pre ++ bad :: post)) code_file
      = true ∧
    (loadModule (pre ++ bad :: post)).1 = (loadModule (pre ++ post)).1 ∧
    fastHasModule (convertOneModule
        (loadInto r code_file (pre ++ bad :: post)) [] code_file) code_file
      = true ∧
    fastIsModuleCorrupt (convertOneModule
        (loadInto r code_file (pre ++ bad :: post)) [] code_file) code_file
      = true := by
  have hbadrun : ∀ s : ParserState, runParser (bad :: post) s =
      ((runParser post s).1, true) := by
    intro s
    rw [runParser_cons, hbad s]
  have hrun : runParser (pre ++ bad :: post) initParserState =
      ((runParser post (runParser pre initParserState).1).1, true) := by
    rw [runParser_append, hbadrun]
    simp
  have hclean : runParser (pre ++ post) initParserState =
      ((runParser post (runParser pre initParserState).1).1,
        (runParser pre initParserState).2 ||
          (runParser post (runParser pre initParserState).1).2) :=
    runParser_append pre post initParserState
  have hflag : (loadModule (pre ++ bad :: post)).2 = true := by
    unfold loadModule
    rw [hrun]
  have hmod : (loadModule (pre ++ bad :: post)).1 =
      (loadModule (pre ++ post)).1 := by
    unfold loadModule
    rw [hrun, hclean]
  have hfind : (loadInto r code_file (pre ++ bad :: post)).find?
      (fun e => e.1 == code_file) =
      some (code_file, loadModule (pre ++ bad :: post)) := by
    unfold loadInto
    exact List.find?_cons_of_pos _ (by simp)
  refine ⟨hflag, ?_, ?_, hmod, ?_, ?_⟩
  · unfold hasModule
    rw [hfind]
    rfl
  · unfold isModuleCorrupt
    rw [hfind]
    exact hflag
  · unfold fastHasModule convertOneModule
    rw [hfind]
    dsimp only
    simp [List.find?]
  · unfold fastIsModuleCorrupt convertOneModule
    rw [hfind]
    dsimp only
    simp only [List.find?, beq_self_eq_true]
    exact hflag



/-- Well-formed lines before the malformed one. -/
def exPre : List (List String) :=
  [["MODULE", "linux", "x86_64", "DEADBEEF", "mod.so"],
   ["FILE", "1", "a.c"],
   ["FUNC", "1000", "20", "0", "f"],
   ["1000", "20", "10", "1"]]

/-- A line with an unknown keyword: malformed in every state. -/
def exBad : List String := ["GARBAGE", "x"]

/-- Well-formed lines after the malformed one. -/
def exPost : List (List String) := [["PUBLIC", "2000", "0", "p"]]

/-- Witness for C7 at a concrete symbol file with a garbage line. -/
theorem C7_corrupt_symbol_file_witness :
    (loadModule (exPre ++ exBad :: exPost)).2 = true ∧
    hasModule (loadInto [] "module3" (exPre ++ exBad :: exPost)) "module3"
      = true ∧
    isModuleCorrupt (loadInto [] "module3" (exPre ++ exBad :: exPost))
      "module3" = true ∧
    (loadModule (exPre ++ exBad :: exPost)).1 =
      (loadModule (exPre ++ exPost)).1 ∧
    fastHasModule (convertOneModule
        (loadInto [] "module3" (exPre ++ exBad :: exPost)) [] "module3")
      "module3" = true ∧
    fastIsModuleCorrupt (convertOneModule
        (loadInto [] "module3" (exPre ++ exBad :: exPost)) [] "module3")
      "module3" = true :=
  C7_corrupt_symbol_file exPre exPost exBad (fun _ => rfl) [] "module3"

/-- Modelled from the spec: a function as seen by the DWARF function/line
pairing sweep (dwarf_cu_to_module.cc is not under src/): a name and one
address range `[start, fend)`. -/
structure PFunc where
  name : String
  start : Nat
  fend : Nat
deriving DecidableEq

/-- Modelled from the spec: a line record for the pairing sweep: an
address range with its file and line number. -/
structure PLine where
  start : Nat
  lend : Nat
  file_id : Nat
  num : Nat
deriving DecidableEq

/-- Modelled from the spec: the sweep over address-sorted disjoint
segments, counting the maximal uncovered stretches of `[pos, limit)`. -/
def gapCount (pos limit : Nat) : List (Nat × Nat) → Nat
  | [] => if pos < limit then 1 else 0
  | (s, e) :: rest =>
    if e ≤ pos then gapCount pos limit rest
    else if limit ≤ s then (if pos < limit then 1 else 0)
    else (if pos < s then 1 else 0) + gapCount (min e limit) limit rest

/-- The reporter events of the pairing pass. -/
inductive PairReport where
  | uncoveredFunction (name : String)
  | uncoveredLine (start : Nat)
deriving DecidableEq

/-- Modelled from the spec: a function whose range is not fully covered by
lines raises UncoveredFunction once, however many gaps it has. -/
def funcReport (lines : List PLine) (f : PFunc) : Option PairReport :=
  if 0 < gapCount f.start f.fend (lines.map (fun l => (l.start, l.lend))) then
    some (PairReport.uncoveredFunction f.name)
  else none

/-- Modelled from the spec: a line not fully covered by functions raises
UncoveredLine once, same policy. -/
def lineReport (functions : List PFunc) (l : PLine) : Option PairReport :=
  if 0 < gapCount l.start l.lend
      (functions.map (fun f => (f.start, f.fend))) then
    some (PairReport.uncoveredLine l.start)
  else none

/-- Modelled from the spec: all reports of one pairing pass with
uncovered-warnings enabled (steps 3 and 4 of the pairing algorithm). -/
def pairReports (functions : List PFunc) (lines : List PLine) :
    List PairReport :=
  functions.filterMap (funcReport lines) ++ lines.filterMap (lineReport functions)

/-- A function report is always an UncoveredFunction for that function. -/
lemma funcReport_eq_some (lines : List PLine) (g : PFunc) (rep : PairReport)
    (hr : funcReport lines g = some rep) :
    rep = PairReport.uncoveredFunction g.name := by
  unfold funcReport at hr
  split at hr
  · exact (Option.some.inj hr).symm
  · exact absurd hr (by simp)

/-- A line report is always an UncoveredLine for that line. -/
lemma lineReport_eq_some (functions : List PFunc) (k : PLine)
    (rep : PairReport) (hr : lineReport functions k = some rep) :
    rep = PairReport.uncoveredLine k.start := by
  unfold lineReport at hr
  split at hr
  · exact (Option.some.inj hr).symm
  · exact absurd hr (by simp)

/-- Each occurrence of an uncovered function contributes exactly one
UncoveredFunction report bearing its name. -/
lemma count_funcReports (lines : List PLine) (f : PFunc)
    (hunc : 0 < gapCount f.start f.fend
      (lines.map (fun l => (l.start, l.lend)))) :
    ∀ functions : List PFunc,
      (∀ g ∈ functions, g.name = f.name → g = f) →
      (functions.filterMap (funcReport lines)).count
          (PairReport.uncoveredFunction f.name) = functions.count f := by
  intro functions
  induction functions with
  | nil => intro _; rfl
  | cons g rest ih =>
    intro hn
    have hn2 : ∀ x ∈ rest, x.name = f.name → x = f := fun x hx =>
      hn x (List.mem_cons_of_mem g hx)
    rw [List.filterMap_cons]
    by_cases hgf : g = f
    · subst hgf
      rw [show funcReport lines g = some (PairReport.uncoveredFunction g.name)
          from by unfold funcReport; rw [if_pos hunc]]
      simp [List.count_cons, ih hn2]
    · cases hr : funcReport lines g with
      | none =>
        dsimp only
        rw [ih hn2]
        simp [List.count_cons, hgf]
      | some rep =>
        dsimp only
        have hrep := funcReport_eq_some lines g rep hr
        have hne : PairReport.uncoveredFunction f.name ≠ rep := by
          rw [hrep]
          intro he
          have hnames : f.name = g.name := by
            injection he
          exact hgf (hn g (List.mem_cons_self g rest) hnames.symm)
        simp [List.count_cons, hne, hgf, ih hn2]

/-- Each occurrence of an uncovered line contributes exactly one
UncoveredLine report bearing its start address. -/
lemma count_lineReports (functions : List PFunc) (l : PLine)
    (hunc : 0 < gapCount l.start l.lend
      (functions.map (fun f => (f.start, f.fend)))) :
    ∀ lines : List PLine,
      (∀ k ∈ lines, k.start = l.start → k = l) →
      (lines.filterMap (lineReport functions)).count
          (PairReport.uncoveredLine l.start) = lines.count l := by
  intro lines
  induction lines with
  | nil => intro _; rfl
  | cons k rest ih =>
    intro hn
    have hn2 : ∀ x ∈ rest, x.start = l.start → x = l := fun x hx =>
      hn x (List.mem_cons_of_mem k hx)
    rw [List.filterMap_cons]
    by_cases hkl : k = l
    · subst hkl
      rw [show lineReport functions k = some (PairReport.uncoveredLine k.start)
          from by unfold lineReport; rw [if_pos hunc]]
      simp [List.count_cons, ih hn2]
    · cases hr : lineReport functions k with
      | none =>
        dsimp only
        rw [ih hn2]
        simp [List.count_cons, hkl]
      | some rep =>
        dsimp only
        have hrep := lineReport_eq_some functions k rep hr
        have hne : PairReport.uncoveredLine l.start ≠ rep := by
          rw [hrep]
          intro he
          have hstarts : l.start = k.start := by
            injection he
          exact hkl (hn k (List.mem_cons_self k rest) hstarts.symm)
        simp [List.count_cons, hne, hkl, ih hn2]

/-- Line reports never contribute UncoveredFunction events. -/
lemma count_funcReports_no_line (lines : List PLine) (functions : List PFunc)
    (name : String) :
    (lines.filterMap (lineReport functions)).count
        (PairReport.uncoveredFunction name) = 0 := by
  induction lines with
  | nil => rfl
  | cons k rest ih =>
    rw [List.filterMap_cons]
    cases hr : lineReport functions k with
    | none => exact ih
    | some rep =>
      dsimp only
      have hrep := lineReport_eq_some functions k rep hr
      rw [List.count_cons, ih]
      simp [hrep]

/-- Function reports never contribute UncoveredLine events. -/
lemma count_lineReports_no_func (functions : List PFunc) (lines : List PLine)
    (start : Nat) :
    (functions.filterMap (funcReport lines)).count
        (PairReport.uncoveredLine start) = 0 := by
  induction functions with
  | nil => rfl
  | cons g rest ih =>
    rw [List.filterMap_cons]
    cases hr : funcReport lines g with
    | none => exact ih
    | some rep =>
      dsimp only
      have hrep := funcReport_eq_some lines g rep hr
      rw [List.count_cons, ih]
      simp [hrep]



/-- C8: during function/line pairing a function whose range is not fully
covered by lines, even with two or more uncovered gaps, causes exactly one
UncoveredFunction report, and a line not fully covered by functions, even
with two or more uncovered stretches, causes exactly one UncoveredLine
report. -/
theorem C8_warn_once_per_entity (functions : List PFunc) (lines : List PLine)
    (f : PFunc) (l : PLine)
    (hf1 : functions.count f = 1)
    (hfname : ∀ g ∈ functions, g.name = f.name → g = f)
    (hfgaps : 2 ≤ gapCount f.start f.fend
      (lines.map (fun k => (k.start, k.lend))))
    (hl1 : lines.count l = 1)
    (hlstart : ∀ k ∈ lines, k.start = l.start → k = l)
    (hlgaps : 2 ≤ gapCount l.start l.lend
      (functions.map (fun g => (g.start, g.fend)))) :
    (pairReports functions lines).count
        (PairReport.uncoveredFunction f.name) = 1 ∧
    (pairReports functions lines).count
        (PairReport.uncoveredLine l.start) = 1 := by
  unfold pairReports
  rw [List.count_append, List.count_append]
  rw [count_funcReports lines f (by omega) functions hfname, hf1,
    count_funcReports_no_line,
    count_lineReports functions l (by omega) lines hlstart, hl1,
    count_lineReports_no_func]
  omega

/-- Functions for the concrete pairing scenario; `fbig` has three gaps. -/
def exPairFuncs : List PFunc := [⟨"f1", 11, 12⟩, ⟨"fbig", 40, 60⟩]

/-- Lines for the concrete pairing scenario; the line at 10 has two
uncovered stretches. -/
def exPairLines : List PLine := [⟨10, 30, 1, 5⟩, ⟨41, 42, 1, 6⟩, ⟨50, 51, 1, 7⟩]

/-- Witness for C8 at the concrete pairing scenario. -/
theorem C8_warn_once_per_entity_witness :
    (pairReports exPairFuncs exPairLines).count
        (PairReport.uncoveredFunction "fbig") = 1 ∧
    (pairReports exPairFuncs exPairLines).count
        (PairReport.uncoveredLine 10) = 1 :=
  C8_warn_once_per_entity exPairFuncs exPairLines ⟨"fbig", 40, 60⟩
    ⟨10, 30, 1, 5⟩ (by decide) (by decide) (by decide) (by decide) (by decide)
    (by decide)

end Breakpad
